import Mathlib

/-!
Verification of the tony agent engine.

This file gives a shallow embedding of the engine's core modules —
the streaming response accumulator and retrying transport
(src/index.ts, src/openai.ts), the conversation memory model
(src/memory.ts), the tool dispatcher (src/tool.ts) and the recursive
task runner / agent loop (src/index.ts) — and proves theorems about
the behaviour of the embedded definitions.

Modelling conventions:
* JavaScript strings are Lean `String`s; `undefined`/`null`-able values
  are `Option`s; JS truthiness of optional strings is `strTruthy`.
* `JSON.parse` / `JSON.stringify` are modelled by an executable
  `parseJson` / `Json.stringify` pair over a `Json` value type
  (integers only for numbers; the two escapes the engine's own payloads
  can produce, plus common whitespace escapes, are supported).
* Effects are made explicit: model responses, MCP tool listings and MCP
  call results come from an `Env` oracle; the number of model requests
  issued and the ids of tasks actually run are threaded through a
  `RunState`, so that "no model call was made" / "the target task was
  not executed" are provable statements.
* The unbounded mutual recursion `runTask` → agent loop → `invoke_task`
  → `runTask` is made total with an explicit fuel parameter, consumed
  one unit per nested `runTask` invocation; all theorems hold for every
  fuel value, and concrete scenarios use ample fuel.
-/

namespace Tony

/-- JSON values (numbers restricted to integers, which covers every
payload the engine itself constructs). -/
inductive Json where
  | null : Json
  | bool (b : Bool) : Json
  | num (n : Int) : Json
  | str (s : String) : Json
  | arr (elems : List Json) : Json
  | obj (fields : List (String × Json)) : Json

/-- JS truthiness of an optional string (`undefined` and `""` are falsy). -/
def strTruthy : Option String → Bool
  | none => false
  | some s => s ≠ ""

/-- Left-to-right JS object semantics: `JSON.parse` lets a duplicate key
overwrite an earlier one, so field lookup returns the last binding. -/
def lookupLast : List (String × Json) → String → Option Json
  | [], _ => none
  | (k, v) :: rest, key =>
    match lookupLast rest key with
    | some r => some r
    | none => if k = key then some v else none

/-- Property access `parsed.key` on a parsed JSON value: `undefined`
(`none`) unless the value is an object with that field. -/
def Json.getField (j : Json) (key : String) : Option Json :=
  match j with
  | .obj fields => lookupLast fields key
  | _ => none

/-- JS truthiness of a possibly-undefined JSON value, as used by
`if (parsed.error)`. -/
def Json.truthy : Option Json → Bool
  | none => false
  | some .null => false
  | some (.bool b) => b
  | some (.num n) => n ≠ 0
  | some (.str s) => s ≠ ""
  | some (.arr _) => true
  | some (.obj _) => true

def lbraceChar : Char := Char.ofNat 123
def rbraceChar : Char := Char.ofNat 125

/-- String-content escaping performed by `JSON.stringify`. -/
def escapeChar (c : Char) : List Char :=
  if c = '"' then ['\\', '"']
  else if c = '\\' then ['\\', '\\']
  else if c = '\n' then ['\\', 'n']
  else if c = '\t' then ['\\', 't']
  else if c = '\r' then ['\\', 'r']
  else [c]

def escapeChars (cs : List Char) : List Char :=
  (cs.map escapeChar).flatten

def quoteString (s : String) : String :=
  "\"" ++ String.mk (escapeChars s.toList) ++ "\""

mutual

/-- `JSON.stringify` on the modelled value type. -/
def Json.stringify : Json → String
  | .null => "null"
  | .bool true => "true"
  | .bool false => "false"
  | .num n => toString n
  | .str s => quoteString s
  | .arr elems => "[" ++ Json.stringifyItems elems ++ "]"
  | .obj fields => "\x7b" ++ Json.stringifyFields fields ++ "\x7d"

def Json.stringifyItems : List Json → String
  | [] => ""
  | [x] => Json.stringify x
  | x :: xs => Json.stringify x ++ "," ++ Json.stringifyItems xs

def Json.stringifyFields : List (String × Json) → String
  | [] => ""
  | [(k, v)] => quoteString k ++ ":" ++ Json.stringify v
  | (k, v) :: xs => quoteString k ++ ":" ++ Json.stringify v ++ "," ++ Json.stringifyFields xs

end

/-- Whitespace skipped by the JSON reader. -/
def skipWs : List Char → List Char
  | c :: cs => if c = ' ' ∨ c = '\n' ∨ c = '\t' ∨ c = '\r' then skipWs cs else c :: cs
  | [] => []

/-- Escape codes accepted inside a JSON string literal. -/
def escCode (c : Char) : Option Char :=
  if c = '"' then some '"'
  else if c = '\\' then some '\\'
  else if c = '/' then some '/'
  else if c = 'n' then some '\n'
  else if c = 't' then some '\t'
  else if c = 'r' then some '\r'
  else none

/-- Parse the body of a JSON string literal (opening quote already
consumed); returns the decoded characters and the rest of the input. -/
def parseStringChars : List Char → Option (List Char × List Char)
  | [] => none
  | c :: cs =>
    if c = '"' then some ([], cs)
    else if c = '\\' then
      match cs with
      | [] => none
      | e :: cs2 =>
        match escCode e with
        | none => none
        | some d =>
          match parseStringChars cs2 with
          | none => none
          | some (s, rest) => some (d :: s, rest)
    else
      match parseStringChars cs with
      | none => none
      | some (s, rest) => some (c :: s, rest)

def takeDigits : List Char → List Char × List Char
  | [] => ([], [])
  | c :: cs =>
    if c.isDigit then
      let (ds, rest) := takeDigits cs
      (c :: ds, rest)
    else ([], c :: cs)

def digitsToNat (ds : List Char) : Nat :=
  ds.foldl (fun acc c => acc * 10 + (c.toNat - '0'.toNat)) 0

mutual

/-- Recursive-descent JSON value parser (fuelled). -/
def parseVal : Nat → List Char → Option (Json × List Char)
  | 0, _ => none
  | Nat.succ fuel, cs =>
    match skipWs cs with
    | [] => none
    | c :: rest =>
      if c = '"' then
        match parseStringChars rest with
        | some (s, r) => some (.str (String.mk s), r)
        | none => none
      else if c = lbraceChar then
        match skipWs rest with
        | c2 :: r2 =>
          if c2 = rbraceChar then some (.obj [], r2)
          else
            match parseObjItems fuel (c2 :: r2) with
            | some (fs, r3) => some (.obj fs, r3)
            | none => none
        | [] => none
      else if c = '[' then
        match skipWs rest with
        | c2 :: r2 =>
          if c2 = ']' then some (.arr [], r2)
          else
            match parseArrItems fuel (c2 :: r2) with
            | some (xs, r3) => some (.arr xs, r3)
            | none => none
        | [] => none
      else if c = 't' then
        match rest with
        | 'r' :: 'u' :: 'e' :: r => some (.bool true, r)
        | _ => none
      else if c = 'f' then
        match rest with
        | 'a' :: 'l' :: 's' :: 'e' :: r => some (.bool false, r)
        | _ => none
      else if c = 'n' then
        match rest with
        | 'u' :: 'l' :: 'l' :: r => some (.null, r)
        | _ => none
      else if c = '-' then
        match takeDigits rest with
        | ([], _) => none
        | (ds, r) => some (.num (-(digitsToNat ds : Int)), r)
      else if c.isDigit then
        match takeDigits (c :: rest) with
        | ([], _) => none
        | (ds, r) => some (.num (digitsToNat ds : Int), r)
      else none

/-- Parse one-or-more comma-separated `"key": value` members followed by
a closing brace. -/
def parseObjItems : Nat → List Char → Option (List (String × Json) × List Char)
  | 0, _ => none
  | Nat.succ fuel, cs =>
    match skipWs cs with
    | '"' :: rest =>
      match parseStringChars rest with
      | none => none
      | some (k, r1) =>
        match skipWs r1 with
        | ':' :: r2 =>
          match parseVal fuel r2 with
          | none => none
          | some (v, r3) =>
            match skipWs r3 with
            | c4 :: r4 =>
              if c4 = ',' then
                match parseObjItems fuel r4 with
                | some (fs, r5) => some ((String.mk k, v) :: fs, r5)
                | none => none
              else if c4 = rbraceChar then some ([(String.mk k, v)], r4)
              else none
            | [] => none
        | _ => none
    | _ => none

/-- Parse one-or-more comma-separated array elements followed by a
closing bracket. -/
def parseArrItems : Nat → List Char → Option (List Json × List Char)
  | 0, _ => none
  | Nat.succ fuel, cs =>
    match parseVal fuel cs with
    | none => none
    | some (v, r1) =>
      match skipWs r1 with
      | c2 :: r2 =>
        if c2 = ',' then
          match parseArrItems fuel r2 with
          | some (xs, r3) => some (v :: xs, r3)
          | none => none
        else if c2 = ']' then some ([v], r2)
        else none
      | [] => none

end

/-- `JSON.parse`: succeeds only when the whole input is one JSON value
(possibly surrounded by whitespace). -/
def parseJson (s : String) : Option Json :=
  match parseVal (s.length + 1) s.toList with
  | some (j, rest) => if skipWs rest = [] then some j else none
  | none => none

/-! ## Streaming response accumulator (src/index.ts: accumulateToolCalls, consumeStream) -/

/-- One tool-call delta as it appears in `chunk.choices[0].delta.tool_calls`. -/
structure ToolCallFunctionDelta where
  name : Option String := none
  arguments : Option String := none
deriving Repr, DecidableEq

structure ToolCallDelta where
  index : Option Nat := none
  id : Option String := none
  type : Option String := none
  function : Option ToolCallFunctionDelta := none
deriving Repr, DecidableEq

/-- The slot type built up by `accumulateToolCalls`
(`{ id?, type: "function", function: { name?, arguments? } }`). -/
structure AccFunction where
  name : Option String := none
  arguments : Option String := none
deriving Repr, DecidableEq

structure ToolCallAccumulator where
  id : Option String := none
  type : String := "function"
  function : AccFunction := {}
deriving Repr, DecidableEq

/-- `target[index] = v` on a JS array: assigning past the end fills the
gap with holes (`none`). -/
def jsArraySet {α : Type} : List (Option α) → Nat → α → List (Option α)
  | [], 0, v => [some v]
  | [], n + 1, v => none :: jsArraySet [] n v
  | _ :: xs, 0, v => some v :: xs
  | x :: xs, n + 1, v => x :: jsArraySet xs n v

/-- `target[i]` on a JS array of possibly-hole slots: `undefined` when
out of range or a hole. -/
def slotAt {α : Type} (t : List (Option α)) (i : Nat) : Option α :=
  (t.get? i).join

/-- The per-delta field updates of `accumulateToolCalls`, applied to the
(created-if-absent) slot at the delta's index. -/
def applyToolCallDelta (slot : Option ToolCallAccumulator) (delta : ToolCallDelta) :
    ToolCallAccumulator :=
  let base := slot.getD {}
  let base := if strTruthy delta.id then { base with id := delta.id } else base
  let base := if delta.type = some "function" then { base with type := "function" } else base
  let fname := delta.function.bind (·.name)
  let base := if strTruthy fname then { base with function := { base.function with name := fname } } else base
  let fargs := delta.function.bind (·.arguments)
  match fargs with
  | some a =>
    if a ≠ "" then
      { base with function :=
          { base.function with arguments := some ((base.function.arguments.getD "") ++ a) } }
    else base
  | none => base

/-- One iteration of the `for (const delta of deltas)` loop of
`accumulateToolCalls`. -/
def accStep (t : List (Option ToolCallAccumulator)) (delta : ToolCallDelta) :
    List (Option ToolCallAccumulator) :=
  let index := delta.index.getD t.length
  jsArraySet t index (applyToolCallDelta (slotAt t index) delta)

/-- src/index.ts `accumulateToolCalls`: each delta selects (or creates)
the slot at `delta.index ?? target.length` and merges its fields into it. -/
def accumulateToolCalls (target : List (Option ToolCallAccumulator))
    (deltas : List ToolCallDelta) : List (Option ToolCallAccumulator) :=
  deltas.foldl accStep target

/-- `chunk.choices[0].delta` of one stream chunk. -/
structure StreamDelta where
  content : Option String := none
  tool_calls : Option (List ToolCallDelta) := none
deriving Repr, DecidableEq

structure StreamChunk where
  delta : Option StreamDelta := none
deriving Repr, DecidableEq

/-- Accumulated state of `consumeStream` (usage/model bookkeeping,
which does not affect the reconstructed message, is not modelled). -/
structure StreamResult where
  content : String
  toolCalls : List (Option ToolCallAccumulator)
deriving Repr, DecidableEq

def consumeStreamStep (st : StreamResult) (chunk : StreamChunk) : StreamResult :=
  match chunk.delta with
  | none => st
  | some delta =>
    let content := if strTruthy delta.content then st.content ++ delta.content.getD "" else st.content
    let toolCalls :=
      match delta.tool_calls with
      | some deltas => accumulateToolCalls st.toolCalls deltas
      | none => st.toolCalls
    { content := content, toolCalls := toolCalls }

/-- src/index.ts `consumeStream`: fold the chunks, concatenating content
deltas and accumulating tool-call deltas. -/
def consumeStream (chunks : List StreamChunk) : StreamResult :=
  chunks.foldl consumeStreamStep { content := "", toolCalls := [] }

/-- The reconstructed assistant message returned by `consumeStream`. -/
structure StreamMessage where
  content : Option String
  tool_calls : Option (List (Option ToolCallAccumulator))
deriving Repr, DecidableEq

def streamAssistantMessage (r : StreamResult) : StreamMessage :=
  { content := if r.content.length > 0 then some r.content else none,
    tool_calls := if r.toolCalls.length > 0 then some r.toolCalls else none }

/-- The tool-call deltas carried by one chunk (empty when the chunk has
no delta or no `tool_calls` field). -/
def chunkToolCallDeltas (chunk : StreamChunk) : List ToolCallDelta :=
  match chunk.delta with
  | some delta => delta.tool_calls.getD []
  | none => []

/-- All tool-call deltas of a chunk sequence, in arrival order. -/
def streamToolCallDeltas (chunks : List StreamChunk) : List ToolCallDelta :=
  chunks.flatMap chunkToolCallDeltas

/-- The distinct indices tagged on the deltas, in first-arrival order. -/
def streamDeltaIndices (chunks : List StreamChunk) : List Nat :=
  (streamToolCallDeltas chunks).filterMap (·.index)

/-- The `function.arguments` fragments tagged with index `i`, in
chunk-arrival order. -/
def argumentFragments (chunks : List StreamChunk) (i : Nat) : List String :=
  ((streamToolCallDeltas chunks).filter (fun d => d.index = some i)).filterMap
    (fun d => d.function.bind (·.arguments))

/-- The content fragments of a chunk sequence, in arrival order. -/
def contentFragments (chunks : List StreamChunk) : List String :=
  chunks.filterMap (fun c => c.delta.bind (·.content))

/-- The accumulated arguments string of the slot at index `i`
(the empty string when the slot is absent or has no arguments yet). -/
def argumentsAt (t : List (Option ToolCallAccumulator)) (i : Nat) : String :=
  ((slotAt t i).bind (·.function.arguments)).getD ""

/-- Concatenation of a list of strings in order. -/
def strConcat (l : List String) : String :=
  l.foldr (· ++ ·) ""

/-- Folding the per-delta update over the deltas that target one slot. -/
def accSlotFold (s : Option ToolCallAccumulator) (l : List ToolCallDelta) :
    Option ToolCallAccumulator :=
  l.foldl (fun s d => some (applyToolCallDelta s d)) s

/-! ## Retrying transport (src/openai.ts) -/

def MAX_RETRIES : Nat := 8

/-- An error raised by the underlying client; `status`/`statusCode` are
the optional HTTP status fields inspected by `getErrorStatus`, `tag`
distinguishes otherwise-equal errors. -/
structure ApiError where
  status : Option Int := none
  statusCode : Option Int := none
  tag : String := ""
deriving Repr, DecidableEq

/-- src/openai.ts `getErrorStatus`: `err?.status ?? err?.statusCode`. -/
def getErrorStatus (e : ApiError) : Option Int :=
  e.status <|> e.statusCode

/-- src/openai.ts `shouldRetry`: HTTP 429 or any 5xx status. -/
def shouldRetry (e : ApiError) : Bool :=
  match getErrorStatus e with
  | some status => status == 429 || status ≥ 500
  | none => false

/-- The `while (true)` body of src/openai.ts `createChatCompletion`,
starting from failure count `attempt`; the transport oracle gives the
outcome of request number `n` (0-based).  Returns the final outcome and
the total number of requests made.  (Backoff delays are timing-only and
are not modelled.) -/
def createChatCompletionLoop {α : Type} (transport : Nat → Except ApiError α)
    (attempt : Nat) : Except ApiError α × Nat :=
  match transport attempt with
  | .ok v => (.ok v, attempt + 1)
  | .error e =>
    if h : attempt + 1 > MAX_RETRIES ∨ shouldRetry e = false then (.error e, attempt + 1)
    else createChatCompletionLoop transport (attempt + 1)
termination_by MAX_RETRIES + 1 - attempt
decreasing_by
  simp only [MAX_RETRIES] at *
  push_neg at h
  omega

/-- src/openai.ts `createChatCompletion` (retry wrapper). -/
def createChatCompletion {α : Type} (transport : Nat → Except ApiError α) :
    Except ApiError α × Nat :=
  createChatCompletionLoop transport 0

/-- Transport failing with HTTP 429 exactly twice, then succeeding. -/
def transientThenOkTransport : Nat → Except ApiError String :=
  fun n => if n < 2 then .error { status := some 429 } else .ok "done"

/-- Transport failing with HTTP 500 on every request. -/
def alwaysFailTransport : Nat → Except ApiError String :=
  fun _ => .error { status := some 500 }

/-- Transport failing immediately with a non-transient HTTP 404. -/
def notFoundTransport : Nat → Except ApiError String :=
  fun _ => .error { status := some 404 }

/-! ## Conversation memory (src/memory.ts) -/

inductive Role where
  | user
  | assistant
  | system
  | tool
deriving Repr, DecidableEq

structure MemoryEntry where
  role : Role
  content : String
deriving Repr, DecidableEq

structure MemoryConfig where
  context : List String
  history : List MemoryEntry
deriving Repr, DecidableEq

/-- The `Memory` class: owned copies of the configured context and
history, mutated only by appends. -/
structure Memory where
  context : List String
  history : List MemoryEntry
deriving Repr, DecidableEq

def createMemory (config : MemoryConfig) : Memory :=
  { context := config.context, history := config.history }

def Memory.getContext (m : Memory) : List String := m.context

def Memory.getHistory (m : Memory) : List MemoryEntry := m.history

def Memory.append (m : Memory) (entry : MemoryEntry) : Memory :=
  { m with history := m.history ++ [entry] }

def Memory.appendUser (m : Memory) (content : String) : Memory :=
  m.append { role := .user, content := content }

def Memory.appendAssistant (m : Memory) (content : String) : Memory :=
  m.append { role := .assistant, content := content }

def Memory.getLastEntry (m : Memory) : Option MemoryEntry :=
  m.history.getLast?

def Memory.endsWithUserMessage (m : Memory) : Bool :=
  match m.getLastEntry with
  | some entry => entry.role = Role.user
  | none => false

def Memory.toConfig (m : Memory) : MemoryConfig :=
  { context := m.context, history := m.history }

/-! ## Instruction data model (src/instructions.ts) -/

structure ToolDefinition where
  name : String
  description : String
  parameters : Json
  mcpServer : Option String := none

structure MCPServerConfig where
  name : String
  url : Option String := none
  command : Option String := none
deriving Repr, DecidableEq

structure ChatTask where
  id : String
  prompt : String
  description : String
  memory : Option MemoryConfig := none
  model : Option String := none

structure AgentTask where
  id : String
  tool : Option ToolDefinition := none
  memory : MemoryConfig
  input : Option String := none
  outcome : Option String := none
  mcpServers : Option (List MCPServerConfig) := none
  mcpTools : Option (List String) := none
  model : Option String := none

inductive Task where
  | chat (t : ChatTask)
  | agent (t : AgentTask)

def Task.id : Task → String
  | .chat t => t.id
  | .agent t => t.id

/-- src/index.ts `mergeMemoryConfigs`. -/
def mergeMemoryConfigs (base : Option MemoryConfig) (inherited : Memory) : MemoryConfig :=
  let inheritedConfig := inherited.toConfig
  match base with
  | none => inheritedConfig
  | some b =>
    { context := b.context ++ inheritedConfig.context,
      history := b.history ++ inheritedConfig.history }

/-- src/index.ts `applyInheritedMemory`. -/
def applyInheritedMemory (task : Task) (inherited : Memory) : Task :=
  match task with
  | .chat t => .chat { t with memory := some (mergeMemoryConfigs t.memory inherited) }
  | .agent t => .agent { t with memory := mergeMemoryConfigs (some t.memory) inherited }

/-- src/index.ts `buildInvokeTaskTool`. -/
def buildInvokeTaskTool : ToolDefinition :=
  { name := "invoke_task",
    description := "Run another task by id and pass the current task memory into it.",
    parameters := Json.obj
      [("type", .str "object"),
       ("properties", Json.obj
         [("taskId", Json.obj
            [("type", .str "string"),
             ("description", .str "The id of the task to invoke.")]),
          ("input", Json.obj
            [("type", .str "string"),
             ("description", .str "Optional input override (agent: input, chat: description).")])]),
       ("required", Json.arr [.str "taskId"])] }

/-- ASCII whitespace, as removed by `String.prototype.trim`. -/
def isWsChar (c : Char) : Bool :=
  c = ' ' ∨ c = '\n' ∨ c = '\t' ∨ c = '\r'

/-- `content.trim()` (modelled over the character list). -/
def jsTrim (s : String) : String :=
  String.mk (((s.toList.dropWhile isWsChar).reverse.dropWhile isWsChar).reverse)

/-- src/index.ts `isLowValueAssistantMessage`. -/
def isLowValueAssistantMessage : Option String → Bool
  | none => true
  | some content =>
    if content = "" then true
    else (jsTrim content).length = 0

/-! ## Environment oracles, messages and run instrumentation -/

structure FunctionCall where
  name : String
  arguments : String
deriving Repr, DecidableEq

/-- A fully-assembled function tool call on an assistant message. -/
structure ToolCallMsg where
  id : String
  type : String := "function"
  function : FunctionCall
deriving Repr, DecidableEq

structure AssistantMsg where
  content : Option String := none
  tool_calls : List ToolCallMsg := []
deriving Repr, DecidableEq

structure ChatMsg where
  role : Role
  content : Option String := none
  tool_call_id : Option String := none
  toolCalls : List ToolCallMsg := []
deriving Repr, DecidableEq

structure McpToolInfo where
  name : String
  description : Option String := none
  parameters : Option Json := none

/-- The external world: model responses indexed by the number of prior
completion requests in the run, MCP tool listings and MCP call results
keyed by server/tool name, and the clock used by `fetchFoo`. -/
structure Env where
  respond : Nat → AssistantMsg
  mcpListTools : String → List McpToolInfo
  mcpCall : String → String → Json
  now : String

/-- Observable run effects: completion requests issued and the ids of
tasks whose `runTask` body actually began executing, in order. -/
structure RunState where
  calls : Nat := 0
  started : List String := []
deriving Repr, DecidableEq

/-- Why an agent loop returned (each corresponds to one of the audited
return points of `runAgentTask`). -/
inductive StopReason where
  | noSeed
  | repeated
  | lowValue
  | complete
  | noTools
  | repeatedTool
  | toolError
  | maxIterations
deriving Repr, DecidableEq

structure LoopState where
  messages : List ChatMsg
  memory : Memory
  lastAssistantContent : Option String := none
  repeatedAssistantCount : Nat := 0
  lastToolSignature : Option String := none
  repeatedToolCalls : Nat := 0
  run : RunState
deriving Repr, DecidableEq

structure AgentResult where
  memory : Memory
  reason : StopReason
  messages : List ChatMsg
  state : RunState
deriving Repr, DecidableEq

structure TaskExecutionContext where
  tasksById : List (String × Task)
  defaultModel : String
  depth : Nat
  taskChain : List String

/-! ## Message building and tool resolution (src/index.ts) -/

def buildMessages (memory : Memory) : List ChatMsg :=
  memory.getContext.map (fun ctx => ({ role := .system, content := some ctx } : ChatMsg)) ++
    memory.getHistory.map
      (fun entry => ({ role := entry.role, content := some entry.content } : ChatMsg))

def buildChatMessages (task : ChatTask) : List ChatMsg :=
  let memory := task.memory.map createMemory
  (match memory with
   | some m => m.getContext.map (fun ctx => ({ role := .system, content := some ctx } : ChatMsg))
   | none => []) ++
  [({ role := .system, content := some task.prompt } : ChatMsg)] ++
  (match memory with
   | some m => m.getHistory.map
      (fun entry => ({ role := entry.role, content := some entry.content } : ChatMsg))
   | none => []) ++
  [({ role := .user, content := some task.description } : ChatMsg)]

def mcpToolToDefinition (serverName : String) (tool : McpToolInfo) : ToolDefinition :=
  { name := tool.name,
    description := tool.description.getD "",
    parameters := tool.parameters.getD (Json.obj [("type", .str "object")]),
    mcpServer := some serverName }

/-- `toolMap.set(name, tool)` guarded by `toolMap.has(name)`. -/
def insertToolIfAbsent (toolMap : List ToolDefinition) (tool : ToolDefinition) :
    List ToolDefinition :=
  if toolMap.any (fun t => t.name = tool.name) then toolMap else toolMap ++ [tool]

/-- src/index.ts `resolveTaskTools`: the explicit local tool first, then
tools of each allow-listed MCP server (skipping names already present;
a listed server with no matching config is skipped with a warning). -/
def resolveTaskTools (env : Env) (task : AgentTask) : List ToolDefinition :=
  let toolMap := match task.tool with
    | some t => [t]
    | none => []
  match task.mcpTools, task.mcpServers with
  | some toolNames, some servers =>
    toolNames.foldl
      (fun acc serverName =>
        match servers.find? (fun s => s.name = serverName) with
        | none => acc
        | some _ =>
          (env.mcpListTools serverName).foldl
            (fun acc tool => insertToolIfAbsent acc (mcpToolToDefinition serverName tool)) acc)
      toolMap
  | _, _ => toolMap

/-! ## Tool dispatcher (src/tool.ts `executeTool`) -/

structure ToolExecutionContext where
  tools : List ToolDefinition
  mcpServers : Option (List MCPServerConfig) := none

def jsonError (message : String) : String :=
  (Json.obj [("error", .str message)]).stringify

/-- src/tool.ts `executeTool`: parse the arguments (a parse failure is a
structured error result), resolve the tool by name, dispatch to the MCP
transport or the local `fetchFoo` stub.  (`validateToolArgs` always
returns true in the source and is folded away.) -/
def executeTool (env : Env) (toolCall : ToolCallMsg) (context : ToolExecutionContext) : String :=
  let name := toolCall.function.name
  match parseJson toolCall.function.arguments with
  | none => jsonError ("Invalid JSON arguments for tool " ++ name)
  | some args =>
    match context.tools.find? (fun t => t.name = name) with
    | none => jsonError ("Unknown tool name: " ++ name)
    | some toolDefinition =>
      match toolDefinition.mcpServer with
      | some serverName =>
        match (context.mcpServers.getD []).find? (fun s => s.name = serverName) with
        | none => jsonError ("MCP server " ++ serverName ++ " not configured")
        | some _ => (env.mcpCall serverName name).stringify
      | none =>
        if name = "fetchFoo" then
          let idValue := match args.getField "id" with
            | some Json.null => Json.str "default"
            | none => Json.str "default"
            | some v => v
          (Json.obj
            [("success", .bool true),
             ("data", Json.obj
               [("id", idValue),
                ("name", .str "Foo Item"),
                ("value", .num 42),
                ("timestamp", .str env.now)])]).stringify
        else jsonError ("Unhandled tool: " ++ name)

/-! ## Agent loop and task runner (src/index.ts) -/

def MAX_AGENT_ITERATIONS : Nat := 10
def MAX_REPEATED_ASSISTANT_MESSAGES : Nat := 2
def MAX_TASK_CHAIN_DEPTH : Nat := 3

/-- Running a sub-task from inside the agent loop; `runTask` ties the
recursive knot below via the fuel parameter. -/
abbrev SubRun := Task → TaskExecutionContext → Memory → RunState → Option Memory × RunState

/-- `Set.add` on the call chain (JS sets keep insertion order and ignore
re-insertion). -/
def chainInsert (chain : List String) (id : String) : List String :=
  if chain.contains id then chain else chain ++ [id]

/-- The target-id extraction of `invokeTaskFromAgent`:
`typeof args.taskId === "string" ? args.taskId
 : typeof args.id === "string" ? args.id : undefined`. -/
def invokeTaskTargetField (args : Json) : Option String :=
  match args.getField "taskId" with
  | some (.str s) => some s
  | _ =>
    match args.getField "id" with
    | some (.str s) => some s
    | _ => none

/-- Input override applied to the cloned sub-task (agent: `input`,
chat: `description`). -/
def overrideTaskInput (task : Task) (input : String) : Task :=
  match task with
  | .agent t => .agent { t with input := some input }
  | .chat t => .chat { t with description := input }

/-- src/index.ts `invokeTaskFromAgent`: parse arguments, extract the
target id, then the guards in source order — depth, cycle, lookup —
each returning a structured error without running anything; otherwise
clone with the input override, extend depth and chain, and run the
sub-task on the invoking task's live memory. -/
def invokeTaskFromAgentGen (subRun : SubRun) (toolCall : ToolCallMsg)
    (memory : Memory) (context : TaskExecutionContext) (st : RunState) : String × RunState :=
  let argsJson := toolCall.function.arguments
  match parseJson argsJson with
  | none => (jsonError "Invalid JSON arguments for tool invoke_task", st)
  | some args =>
    match invokeTaskTargetField args with
    | none => (jsonError "invoke_task requires taskId", st)
    | some taskId =>
      if taskId = "" then (jsonError "invoke_task requires taskId", st)
      else if context.depth ≥ MAX_TASK_CHAIN_DEPTH then
        (jsonError ("Max task chain depth (" ++ toString MAX_TASK_CHAIN_DEPTH ++ ") reached"), st)
      else if context.taskChain.contains taskId then
        (jsonError ("Cycle detected: task \"" ++ taskId ++ "\" is already in the call chain"), st)
      else
        match (context.tasksById.find? (fun p => p.1 = taskId)).map (fun p => p.2) with
        | none => (jsonError ("Task not found: " ++ taskId), st)
        | some nextTask =>
          let inputOverride := match args.getField "input" with
            | some (.str s) => some s
            | _ => none
          let taskToRun := match inputOverride with
            | some ov => if ov = "" then nextTask else overrideTaskInput nextTask ov
            | none => nextTask
          let nextContext := { context with
            depth := context.depth + 1,
            taskChain := chainInsert context.taskChain taskId }
          let (nextMemory, st2) := subRun taskToRun nextContext memory st
          let lastEntry := nextMemory.bind (fun m => m.getLastEntry)
          ((Json.obj
              [("ok", .bool true),
               ("taskId", .str taskId),
               ("lastMessage",
                 match lastEntry with
                 | some entry => .str entry.content
                 | none => .null)]).stringify, st2)

def toolResponseMsg (toolCall : ToolCallMsg) (content : String) : ChatMsg :=
  { role := .tool, content := some content, tool_call_id := some toolCall.id }

def assistantResponseMsg (m : AssistantMsg) : ChatMsg :=
  { role := .assistant, content := m.content, toolCalls := m.tool_calls }

/-- `toolSignature === lastToolSignature` (false while the latter is
still undefined). -/
def toolSignatureMatches (lastSignature : Option String) (signature : String) : Bool :=
  match lastSignature with
  | some s => s = signature
  | none => false

/-- `assistantMessage.content === lastAssistantContent`: only two
strings can compare equal (`null` and `undefined` never match). -/
def contentMatchesLast (content lastContent : Option String) : Bool :=
  match content, lastContent with
  | some a, some b => a = b
  | _, _ => false

def finishRun (ls : LoopState) (reason : StopReason) : AgentResult :=
  { memory := ls.memory, reason := reason, messages := ls.messages, state := ls.run }

/-- One entry of the `for (const toolCall of assistantMessage.tool_calls)`
loop: skip non-function calls; dispatch `invoke_task` (its result never
stops the loop); otherwise apply the repeated-signature guard, dispatch
via `executeTool`, record the result as the tool message, and stop the
whole run when the result is JSON whose `error` field is truthy. -/
def processOneToolCall (env : Env) (subRun : SubRun) (context : TaskExecutionContext)
    (externalToolDefinitions : List ToolDefinition)
    (mcpServers : Option (List MCPServerConfig))
    (toolCall : ToolCallMsg) (ls : LoopState) : Option StopReason × LoopState :=
  if toolCall.type ≠ "function" then (none, ls)
  else if toolCall.function.name = "invoke_task" then
    let (result, run2) := invokeTaskFromAgentGen subRun toolCall ls.memory context ls.run
    (none, { ls with run := run2,
                     messages := ls.messages ++ [toolResponseMsg toolCall result] })
  else
    let toolSignature := toolCall.function.name ++ ":" ++ toolCall.function.arguments
    let ls :=
      if toolSignatureMatches ls.lastToolSignature toolSignature then
        { ls with repeatedToolCalls := ls.repeatedToolCalls + 1 }
      else
        { ls with repeatedToolCalls := 0, lastToolSignature := some toolSignature }
    if ls.repeatedToolCalls ≥ 2 then (some .repeatedTool, ls)
    else
      let result := executeTool env toolCall
        { tools := externalToolDefinitions, mcpServers := mcpServers }
      let isErrorResult :=
        match parseJson result with
        | some parsed => Json.truthy (parsed.getField "error")
        | none => false
      let ls := { ls with messages := ls.messages ++ [toolResponseMsg toolCall result] }
      if isErrorResult then (some .toolError, ls) else (none, ls)

def processToolCalls (env : Env) (subRun : SubRun) (context : TaskExecutionContext)
    (externalToolDefinitions : List ToolDefinition)
    (mcpServers : Option (List MCPServerConfig)) :
    List ToolCallMsg → LoopState → Option StopReason × LoopState
  | [], ls => (none, ls)
  | toolCall :: rest, ls =>
    match processOneToolCall env subRun context externalToolDefinitions mcpServers toolCall ls with
    | (some reason, ls2) => (some reason, ls2)
    | (none, ls2) => processToolCalls env subRun context externalToolDefinitions mcpServers rest ls2

/-- The `for (let i = 0; i < MAX_AGENT_ITERATIONS; i++)` loop of
`runAgentTask`: request a completion, record the assistant message,
update the repetition guard, and stop on — in source order — repeated
content, no tool calls (low-value or complete), an empty tool set, or a
stopping condition raised while executing the turn's tool calls. -/
def agentIter (env : Env) (subRun : SubRun) (context : TaskExecutionContext)
    (externalToolDefinitions toolDefinitions : List ToolDefinition)
    (mcpServers : Option (List MCPServerConfig)) :
    Nat → LoopState → AgentResult
  | 0, ls => finishRun ls .maxIterations
  | Nat.succ iters, ls =>
    let assistantMessage := env.respond ls.run.calls
    let ls := { ls with run := { ls.run with calls := ls.run.calls + 1 },
                        messages := ls.messages ++ [assistantResponseMsg assistantMessage] }
    let ls := match assistantMessage.content with
      | some content => { ls with memory := ls.memory.appendAssistant content }
      | none => ls
    let ls :=
      if contentMatchesLast assistantMessage.content ls.lastAssistantContent then
        { ls with repeatedAssistantCount := ls.repeatedAssistantCount + 1 }
      else
        { ls with repeatedAssistantCount := 0,
                  lastAssistantContent := assistantMessage.content <|> ls.lastAssistantContent }
    if ls.repeatedAssistantCount ≥ MAX_REPEATED_ASSISTANT_MESSAGES then
      finishRun ls .repeated
    else if assistantMessage.tool_calls.isEmpty then
      if isLowValueAssistantMessage assistantMessage.content then finishRun ls .lowValue
      else finishRun ls .complete
    else if toolDefinitions.isEmpty then
      finishRun ls .noTools
    else
      match processToolCalls env subRun context externalToolDefinitions mcpServers
          assistantMessage.tool_calls ls with
      | (some reason, ls2) => finishRun ls2 reason
      | (none, ls2) =>
        agentIter env subRun context externalToolDefinitions toolDefinitions mcpServers iters ls2

/-- The `Desired outcome:` system message appended when the task
declares a non-blank outcome. -/
def outcomeMessages (task : AgentTask) (messages : List ChatMsg) : List ChatMsg :=
  match task.outcome with
  | some outcome =>
    if (jsTrim outcome).length > 0 then
      messages ++ [({ role := .system, content := some ("Desired outcome: " ++ outcome) } : ChatMsg)]
    else messages
  | none => messages

/-- The tool set exposed to the model: the resolved external tools,
with the built-in `invoke_task` tool appended unless a resolved tool
already bears that name. -/
def agentToolDefinitions (env : Env) (task : AgentTask) : List ToolDefinition :=
  let externalToolDefinitions := resolveTaskTools env task
  let invokeTaskTool := buildInvokeTaskTool
  if externalToolDefinitions.any (fun tool => tool.name = invokeTaskTool.name) then
    externalToolDefinitions
  else externalToolDefinitions ++ [invokeTaskTool]

/-- src/index.ts `runAgentTask`: build the memory and tool set (always
appending the built-in `invoke_task` tool unless a resolved tool already
bears that name), seed a user turn from `task.input` when the history
does not end with one (terminating at once when there is no seed), then
iterate. -/
def runAgentTaskGen (env : Env) (subRun : SubRun) (task : AgentTask)
    (context : TaskExecutionContext) (st : RunState) : AgentResult :=
  let memory := createMemory task.memory
  let externalToolDefinitions := resolveTaskTools env task
  let toolDefinitions := agentToolDefinitions env task
  let messages := outcomeMessages task (buildMessages memory)
  if memory.endsWithUserMessage then
    agentIter env subRun context externalToolDefinitions toolDefinitions task.mcpServers
      MAX_AGENT_ITERATIONS
      { messages := messages, memory := memory, run := st }
  else
    match task.input with
    | some input =>
      agentIter env subRun context externalToolDefinitions toolDefinitions task.mcpServers
        MAX_AGENT_ITERATIONS
        { messages := messages ++ [({ role := .user, content := some input } : ChatMsg)],
          memory := memory.appendUser input,
          run := st }
    | none => { memory := memory, reason := .noSeed, messages := messages, state := st }

/-- src/index.ts `runChatTask`: a single completion request (the built
messages only shape the request payload). -/
def runChatTask (task : ChatTask) (st : RunState) : RunState :=
  let _ := buildChatMessages task
  { st with calls := st.calls + 1 }

/-- The body of src/index.ts `runTask`, parameterised by the sub-task
runner: record the task as started, apply inherited memory, add the
current task's id to the chain so `invoke_task` can detect cycles, and
dispatch on the task type.  (Model resolution and audit logging do not
affect the modelled observables.) -/
def runTaskBody (env : Env) (subRun : SubRun) (task : Task) (context : TaskExecutionContext)
    (inheritedMemory : Option Memory) (st : RunState) : Option Memory × RunState :=
  let st := { st with started := st.started ++ [task.id] }
  let resolvedTask := match inheritedMemory with
    | some inherited => applyInheritedMemory task inherited
    | none => task
  let activeContext := { context with taskChain := chainInsert context.taskChain task.id }
  match resolvedTask with
  | .chat chatTask => (none, runChatTask chatTask st)
  | .agent agentTask =>
    let result := runAgentTaskGen env subRun agentTask activeContext st
    (some result.memory, result.state)

/-- src/index.ts `runTask`, with fuel bounding the nesting depth of
sub-task invocations (one unit per nested `runTask`; with fuel exhausted
a nested invocation yields no memory).  The engine's own
`MAX_TASK_CHAIN_DEPTH` guard fires strictly below any fuel ≥ 4. -/
def runTask (env : Env) : Nat → Task → TaskExecutionContext → Option Memory → RunState →
    Option Memory × RunState
  | 0, task, context, inheritedMemory, st =>
    runTaskBody env (fun _ _ _ st2 => (none, st2)) task context inheritedMemory st
  | Nat.succ fuel, task, context, inheritedMemory, st =>
    runTaskBody env
      (fun nextTask nextContext mem st2 => runTask env fuel nextTask nextContext (some mem) st2)
      task context inheritedMemory st

/-- The sub-task runner used at a given fuel level. -/
def subRunOf (env : Env) : Nat → SubRun
  | 0 => fun _ _ _ st => (none, st)
  | Nat.succ fuel =>
    fun nextTask nextContext mem st => runTask env fuel nextTask nextContext (some mem) st

def runAgentTask (env : Env) (fuel : Nat) (task : AgentTask)
    (context : TaskExecutionContext) (st : RunState) : AgentResult :=
  runAgentTaskGen env (subRunOf env fuel) task context st

def invokeTaskFromAgent (env : Env) (fuel : Nat) (toolCall : ToolCallMsg) (memory : Memory)
    (context : TaskExecutionContext) (st : RunState) : String × RunState :=
  invokeTaskFromAgentGen (subRunOf env fuel) toolCall memory context st

/-! ## Concrete scenarios -/

/-- An environment whose model never answers with content or tool calls
and whose MCP surface is empty. -/
def emptyEnv : Env :=
  { respond := fun _ => {},
    mcpListTools := fun _ => [],
    mcpCall := fun _ _ => Json.null,
    now := "t0" }

/-- An agent task whose memory ends in a non-user entry and which
declares no seed input. -/
def noSeedTask : AgentTask :=
  { id := "A", memory := { context := ["be brief"], history := [] } }

/-- A top-level execution context as built per task by the `run`
command, after `runTask` has inserted the current task id. -/
def scenarioContext : TaskExecutionContext :=
  { tasksById := [], defaultModel := "m", depth := 0, taskChain := ["A"] }

/-- Repetition-guard scenario: the model answers "x" on every turn; the
first two turns also request an `invoke_task` call with malformed
arguments, so the loop continues past them. -/
def repeatScenarioEnv : Env :=
  { respond := fun n =>
      match n with
      | 0 => { content := some "x", tool_calls := [⟨"1", "function", ⟨"invoke_task", "x"⟩⟩] }
      | 1 => { content := some "x", tool_calls := [⟨"2", "function", ⟨"invoke_task", "x"⟩⟩] }
      | _ => { content := some "x", tool_calls := [] },
    mcpListTools := fun _ => [],
    mcpCall := fun _ _ => Json.null,
    now := "t0" }

def repeatScenarioTask : AgentTask :=
  { id := "A", memory := { context := [], history := [{ role := .user, content := "go" }] } }

/-- Self-invocation scenario: task "A" asks to invoke task "A". -/
def selfInvokeTask : AgentTask :=
  { id := "A", memory := { context := [], history := [{ role := .user, content := "go" }] } }

def selfInvokeEnv : Env :=
  { respond := fun n =>
      match n with
      | 0 => { content := some "try",
               tool_calls := [⟨"1", "function", ⟨"invoke_task", "\x7b\"taskId\":\"A\"\x7d"⟩⟩] }
      | _ => { content := some "done", tool_calls := [] },
    mcpListTools := fun _ => [],
    mcpCall := fun _ _ => Json.null,
    now := "t0" }

def selfInvokeContext : TaskExecutionContext :=
  { tasksById := [("A", .agent selfInvokeTask)], defaultModel := "m",
    depth := 0, taskChain := [] }

/-- Depth-limit scenario: a chain A → B → C → D → E of `invoke_task`
calls; the invocation of E is attempted at depth 3. -/
def chainAgent (id : String) (hist : List MemoryEntry) (inp : Option String) : AgentTask :=
  { id := id, memory := { context := [], history := hist }, input := inp }

def chainTaskA : AgentTask := chainAgent "A" [{ role := .user, content := "go" }] none
def chainTaskB : AgentTask := chainAgent "B" [] (some "goB")
def chainTaskC : AgentTask := chainAgent "C" [] (some "goC")
def chainTaskD : AgentTask := chainAgent "D" [] (some "goD")
def chainTaskE : AgentTask := chainAgent "E" [] (some "goE")

def invokeTaskCall (callId target : String) : ToolCallMsg :=
  ⟨callId, "function", ⟨"invoke_task", "\x7b\"taskId\":\"" ++ target ++ "\"\x7d"⟩⟩

def chainScenarioEnv : Env :=
  { respond := fun n =>
      match n with
      | 0 => { content := some "cA", tool_calls := [invokeTaskCall "1" "B"] }
      | 1 => { content := some "cB", tool_calls := [invokeTaskCall "2" "C"] }
      | 2 => { content := some "cC", tool_calls := [invokeTaskCall "3" "D"] }
      | 3 => { content := some "cD", tool_calls := [invokeTaskCall "4" "E"] }
      | 4 => { content := some "dD", tool_calls := [] }
      | 5 => { content := some "dC", tool_calls := [] }
      | 6 => { content := some "dB", tool_calls := [] }
      | _ => { content := some "dA", tool_calls := [] },
    mcpListTools := fun _ => [],
    mcpCall := fun _ _ => Json.null,
    now := "t0" }

def chainScenarioTasks : List (String × Task) :=
  [("A", .agent chainTaskA), ("B", .agent chainTaskB), ("C", .agent chainTaskC),
   ("D", .agent chainTaskD), ("E", .agent chainTaskE)]

def chainScenarioContext : TaskExecutionContext :=
  { tasksById := chainScenarioTasks, defaultModel := "m", depth := 0, taskChain := [] }

/-- Malformed-arguments scenario: the model calls the task's local
`fetchFoo` tool with arguments that are not JSON. -/
def fetchFooTool : ToolDefinition :=
  { name := "fetchFoo", description := "Fetch a foo item.",
    parameters := Json.obj [("type", .str "object")] }

def malformedArgsTask : AgentTask :=
  { id := "A", tool := some fetchFooTool,
    memory := { context := [], history := [{ role := .user, content := "go" }] } }

def malformedArgsEnv : Env :=
  { respond := fun n =>
      match n with
      | 0 => { content := some "hi", tool_calls := [⟨"1", "function", ⟨"fetchFoo", "x"⟩⟩] }
      | _ => { content := some "done", tool_calls := [] },
    mcpListTools := fun _ => [],
    mcpCall := fun _ _ => Json.null,
    now := "t0" }

/-- Falsy-error scenario: an MCP tool whose result is the JSON object
`\x7b"error":null\x7d` — it contains an `error` field, but the field is
not truthy. -/
def nullErrorTask : AgentTask :=
  { id := "A", memory := { context := [], history := [{ role := .user, content := "go" }] },
    mcpServers := some [{ name := "s" }], mcpTools := some ["s"] }

def nullErrorEnv : Env :=
  { respond := fun n =>
      match n with
      | 0 => { content := some "hi", tool_calls := [⟨"1", "function", ⟨"t", "\x7b\x7d"⟩⟩] }
      | _ => { content := some "done", tool_calls := [] },
    mcpListTools := fun serverName => if serverName = "s" then [{ name := "t" }] else [],
    mcpCall := fun _ _ => Json.obj [("error", Json.null)],
    now := "t0" }

end Tony

namespace Tony

/-! ## Theorems -/

theorem slotAt_nil {α : Type} (i : Nat) : slotAt ([] : List (Option α)) i = none := by
  cases i <;> rfl

theorem slotAt_cons_zero {α : Type} (x : Option α) (xs : List (Option α)) :
    slotAt (x :: xs) 0 = x := rfl

theorem slotAt_cons_succ {α : Type} (x : Option α) (xs : List (Option α)) (i : Nat) :
    slotAt (x :: xs) (i + 1) = slotAt xs i := rfl

theorem slotAt_jsArraySet {α : Type} (j : Nat) :
    ∀ (t : List (Option α)) (i : Nat) (v : α),
      slotAt (jsArraySet t j v) i = if i = j then some v else slotAt t i := by
  induction j with
  | zero =>
    intro t i v
    cases t <;> cases i <;> simp [jsArraySet, slotAt_nil, slotAt_cons_zero, slotAt_cons_succ]
  | succ n ih =>
    intro t i v
    cases t with
    | nil =>
      cases i with
      | zero => simp [jsArraySet, slotAt_cons_zero, slotAt_nil]
      | succ m => simp [jsArraySet, slotAt_cons_succ, ih, slotAt_nil]
    | cons x xs =>
      cases i with
      | zero => simp [jsArraySet, slotAt_cons_zero]
      | succ m => simp [jsArraySet, slotAt_cons_succ, ih]

theorem slotAt_accStep (t : List (Option ToolCallAccumulator)) (d : ToolCallDelta)
    (j : Nat) (hd : d.index = some j) (i : Nat) :
    slotAt (accStep t d) i =
      if i = j then some (applyToolCallDelta (slotAt t j) d) else slotAt t i := by
  simp [accStep, hd, slotAt_jsArraySet]

theorem slotAt_accumulateToolCalls :
    ∀ (ds : List ToolCallDelta) (t : List (Option ToolCallAccumulator)),
      (∀ d ∈ ds, (d.index).isSome) →
      ∀ i, slotAt (accumulateToolCalls t ds) i =
        accSlotFold (slotAt t i) (ds.filter (fun d => d.index = some i)) := by
  intro ds
  induction ds with
  | nil => intro t _ i; simp [accumulateToolCalls, accSlotFold]
  | cons d ds ih =>
    intro t h i
    obtain ⟨j, hj⟩ := Option.isSome_iff_exists.mp (h d (by simp))
    have hrest : ∀ d ∈ ds, (d.index).isSome := fun d hd => h d (by simp [hd])
    have hstep : accumulateToolCalls t (d :: ds) = accumulateToolCalls (accStep t d) ds := rfl
    rw [hstep, ih (accStep t d) hrest i, slotAt_accStep t d j hj i]
    by_cases hij : i = j
    · subst hij
      simp [hj, accSlotFold]
    · have : ¬ d.index = some i := by simp [hj]; omega
      simp [List.filter_cons, this, hij]

theorem arguments_applyToolCallDelta (s : Option ToolCallAccumulator) (d : ToolCallDelta) :
    (applyToolCallDelta s d).function.arguments =
      match d.function.bind (·.arguments) with
      | some a =>
        if a = "" then s.bind (·.function.arguments)
        else some (((s.bind (·.function.arguments)).getD "") ++ a)
      | none => s.bind (·.function.arguments) := by
  cases hf : d.function.bind (·.arguments) with
  | none =>
    cases s <;>
      simp only [applyToolCallDelta, hf] <;>
      split_ifs <;>
      simp
  | some a =>
    by_cases ha : a = "" <;>
      cases s <;>
      simp only [applyToolCallDelta, hf] <;>
      split_ifs <;>
      simp_all [String.empty_append]

theorem argumentsOf_accSlotFold :
    ∀ (l : List ToolCallDelta) (s : Option ToolCallAccumulator),
      ((accSlotFold s l).bind (·.function.arguments)).getD "" =
        ((s.bind (·.function.arguments)).getD "") ++
          strConcat (l.filterMap (fun d => d.function.bind (·.arguments))) := by
  intro l
  induction l with
  | nil => intro s; simp [accSlotFold, strConcat, String.append_empty]
  | cons d l ih =>
    intro s
    have hstep : accSlotFold s (d :: l) = accSlotFold (some (applyToolCallDelta s d)) l := rfl
    rw [hstep, ih]
    cases hf : d.function.bind (·.arguments) with
    | none =>
      simp [List.filterMap_cons, hf, arguments_applyToolCallDelta, Option.bind_some]
    | some a =>
      by_cases ha : a = ""
      · subst ha
        simp [List.filterMap_cons, hf, arguments_applyToolCallDelta, strConcat,
          String.empty_append]
      · simp [List.filterMap_cons, hf, arguments_applyToolCallDelta, ha, strConcat,
          String.append_assoc]

theorem isSome_accSlotFold :
    ∀ (l : List ToolCallDelta) (s : Option ToolCallAccumulator),
      (accSlotFold s l).isSome ↔ s.isSome ∨ l ≠ [] := by
  intro l
  induction l with
  | nil => intro s; simp [accSlotFold]
  | cons d l ih =>
    intro s
    have hstep : accSlotFold s (d :: l) = accSlotFold (some (applyToolCallDelta s d)) l := rfl
    rw [hstep, ih]
    simp

theorem consumeStream_toolCalls :
    ∀ (chunks : List StreamChunk) (st : StreamResult),
      (chunks.foldl consumeStreamStep st).toolCalls =
        accumulateToolCalls st.toolCalls (streamToolCallDeltas chunks) := by
  intro chunks
  induction chunks with
  | nil => intro st; simp [streamToolCallDeltas, accumulateToolCalls]
  | cons c chunks ih =>
    intro st
    have hflat : streamToolCallDeltas (c :: chunks) =
        chunkToolCallDeltas c ++ streamToolCallDeltas chunks := rfl
    rw [List.foldl_cons, ih, hflat]
    have hacc : ∀ t l1 l2, accumulateToolCalls t (l1 ++ l2) =
        accumulateToolCalls (accumulateToolCalls t l1) l2 := by
      intro t l1 l2; simp [accumulateToolCalls, List.foldl_append]
    rw [hacc]
    congr 1
    cases hd : c.delta with
    | none => simp [consumeStreamStep, hd, chunkToolCallDeltas, accumulateToolCalls]
    | some delta =>
      cases ht : delta.tool_calls with
      | none => simp [consumeStreamStep, hd, ht, chunkToolCallDeltas, accumulateToolCalls]
      | some ds => simp [consumeStreamStep, hd, ht, chunkToolCallDeltas]

theorem consumeStream_content :
    ∀ (chunks : List StreamChunk) (st : StreamResult),
      (chunks.foldl consumeStreamStep st).content =
        st.content ++ strConcat (contentFragments chunks) := by
  intro chunks
  induction chunks with
  | nil => intro st; simp [contentFragments, strConcat, String.append_empty]
  | cons c chunks ih =>
    intro st
    rw [List.foldl_cons, ih]
    cases hd : c.delta with
    | none => simp [consumeStreamStep, hd, contentFragments, List.filterMap_cons]
    | some delta =>
      cases hc : delta.content with
      | none =>
        simp [consumeStreamStep, hd, hc, contentFragments, List.filterMap_cons, strTruthy]
      | some s =>
        by_cases hs : s = ""
        · subst hs
          simp [consumeStreamStep, hd, hc, contentFragments, List.filterMap_cons, strTruthy,
            strConcat, String.empty_append]
        · simp [consumeStreamStep, hd, hc, contentFragments, List.filterMap_cons, strTruthy, hs,
            strConcat, String.append_assoc]

/-- C1: for any finite chunk sequence whose tool-call deltas all carry an
index, the accumulator of `consumeStream` has a (single) defined slot
exactly at each distinct delta index, the arguments string of the slot at
index `i` is the concatenation, in chunk-arrival order, of all
`function.arguments` fragments tagged with index `i`, and the content
string is the concatenation of the content deltas in arrival order. -/
theorem claim_C1_stream_accumulation (chunks : List StreamChunk)
    (hidx : ∀ d ∈ streamToolCallDeltas chunks, (d.index).isSome) :
    (∀ i, (slotAt (consumeStream chunks).toolCalls i).isSome ↔
        i ∈ streamDeltaIndices chunks) ∧
    (∀ i, argumentsAt (consumeStream chunks).toolCalls i =
        strConcat (argumentFragments chunks i)) ∧
    (consumeStream chunks).content = strConcat (contentFragments chunks) := by
  have htc : (consumeStream chunks).toolCalls =
      accumulateToolCalls [] (streamToolCallDeltas chunks) := by
    have := consumeStream_toolCalls chunks { content := "", toolCalls := [] }
    exact this
  have hslot : ∀ i, slotAt (consumeStream chunks).toolCalls i =
      accSlotFold none ((streamToolCallDeltas chunks).filter (fun d => d.index = some i)) := by
    intro i
    rw [htc, slotAt_accumulateToolCalls (streamToolCallDeltas chunks) [] hidx i, slotAt_nil]
  refine ⟨?_, ?_, ?_⟩
  · intro i
    rw [hslot i, isSome_accSlotFold]
    simp only [Option.isSome_none, Bool.false_eq_true, false_or, ne_eq]
    rw [streamDeltaIndices, List.mem_filterMap]
    constructor
    · intro h
      obtain ⟨d, hd⟩ := List.exists_mem_of_ne_nil _ h
      have := List.mem_filter.mp hd
      exact ⟨d, this.1, by simpa using this.2⟩
    · rintro ⟨d, hd, hdi⟩
      intro hnil
      have : d ∈ (streamToolCallDeltas chunks).filter (fun d => d.index = some i) :=
        List.mem_filter.mpr ⟨hd, by simpa using hdi⟩
      simp [hnil] at this
  · intro i
    rw [argumentsAt, hslot i, argumentsOf_accSlotFold]
    simp [argumentFragments, String.empty_append]
  · have := consumeStream_content chunks { content := "", toolCalls := [] }
    simpa [String.empty_append, consumeStream] using this

/-- Witness for C1: the spec's own example — two chunks targeting index 0,
whose argument fragments reassemble the JSON string, plus interleaved
content. -/
theorem claim_C1_stream_accumulation_witness :
    (∀ d ∈ streamToolCallDeltas
        [⟨some ⟨some "Hi", some [⟨some 0, some "call_1", some "function",
            some ⟨some "f", some "\x7b\"a\":"⟩⟩]⟩⟩,
         ⟨some ⟨none, some [⟨some 0, none, none, some ⟨none, some "1\x7d"⟩⟩,
            ⟨some 2, some "call_2", some "function", some ⟨some "g", some "[]"⟩⟩]⟩⟩],
      (d.index).isSome) ∧
    (∀ i, (slotAt (consumeStream
        [⟨some ⟨some "Hi", some [⟨some 0, some "call_1", some "function",
            some ⟨some "f", some "\x7b\"a\":"⟩⟩]⟩⟩,
         ⟨some ⟨none, some [⟨some 0, none, none, some ⟨none, some "1\x7d"⟩⟩,
            ⟨some 2, some "call_2", some "function", some ⟨some "g", some "[]"⟩⟩]⟩⟩]).toolCalls
        i).isSome ↔
      i ∈ streamDeltaIndices
        [⟨some ⟨some "Hi", some [⟨some 0, some "call_1", some "function",
            some ⟨some "f", some "\x7b\"a\":"⟩⟩]⟩⟩,
         ⟨some ⟨none, some [⟨some 0, none, none, some ⟨none, some "1\x7d"⟩⟩,
            ⟨some 2, some "call_2", some "function", some ⟨some "g", some "[]"⟩⟩]⟩⟩]) := by
  refine ⟨by decide, (claim_C1_stream_accumulation _ (by decide)).1⟩

theorem createChatCompletionLoop_ok {α : Type} (transport : Nat → Except ApiError α)
    (a : Nat) (v : α) (h : transport a = .ok v) :
    createChatCompletionLoop transport a = (.ok v, a + 1) := by
  rw [createChatCompletionLoop, h]

theorem createChatCompletionLoop_chain {α : Type} (transport : Nat → Except ApiError α) :
    ∀ (k a : Nat),
      (∀ j, j < k → ∃ e, transport (a + j) = .error e ∧ shouldRetry e = true) →
      a + k ≤ MAX_RETRIES →
      createChatCompletionLoop transport a = createChatCompletionLoop transport (a + k) := by
  intro k
  induction k with
  | zero => intro a _ _; rfl
  | succ k ih =>
    intro a h hbound
    obtain ⟨e, he, hr⟩ := h 0 (Nat.succ_pos k)
    rw [Nat.add_zero] at he
    rw [createChatCompletionLoop, he]
    dsimp only
    rw [dif_neg]
    · have hshift : ∀ j, j < k → ∃ e2, transport (a + 1 + j) = .error e2 ∧ shouldRetry e2 = true := by
        intro j hj
        have h2 := h (j + 1) (by omega)
        rwa [show a + (j + 1) = a + 1 + j by omega] at h2
      have := ih (a + 1) hshift (by omega)
      rw [this]
      congr 1
      omega
    · push_neg
      refine ⟨?_, by simp [hr]⟩
      simp only [MAX_RETRIES] at hbound ⊢
      omega

/-- C6: through the retrying transport, (1) k transient (429/5xx)
failures followed by a success return the success with exactly k+1
requests issued; (2) if every request fails transiently, the error is
re-raised after exactly MAX_RETRIES+1 requests; (3) after any run of
transient failures, a non-transient failure is re-raised immediately
with no further request; (4) errors without a status are never retried;
(5) the transient classification is exactly 429-or-5xx. -/
theorem claim_C6_retry_backoff {α : Type} :
    (∀ (transport : Nat → Except ApiError α) (k : Nat) (v : α),
      (∀ j, j < k → ∃ e, transport j = .error e ∧ shouldRetry e = true) →
      transport k = .ok v → k < MAX_RETRIES →
      createChatCompletion transport = (.ok v, k + 1)) ∧
    (∀ transport : Nat → Except ApiError α,
      (∀ j, j ≤ MAX_RETRIES → ∃ e, transport j = .error e ∧ shouldRetry e = true) →
      ∃ e, createChatCompletion transport = (.error e, MAX_RETRIES + 1)) ∧
    (∀ (transport : Nat → Except ApiError α) (k : Nat) (e : ApiError),
      (∀ j, j < k → ∃ e2, transport j = .error e2 ∧ shouldRetry e2 = true) →
      transport k = .error e → shouldRetry e = false → k ≤ MAX_RETRIES →
      createChatCompletion transport = (.error e, k + 1)) ∧
    (∀ e : ApiError, getErrorStatus e = none → shouldRetry e = false) ∧
    (∀ e : ApiError, shouldRetry e = true ↔
      (getErrorStatus e = some 429 ∨ ∃ s, getErrorStatus e = some s ∧ 500 ≤ s)) := by
  refine ⟨?_, ?_, ?_, ?_, ?_⟩
  · intro transport k v htrans hok hbound
    have hchain := createChatCompletionLoop_chain transport k 0
      (fun j hj => by simpa using htrans j hj)
      (by simp only [MAX_RETRIES] at hbound ⊢; omega)
    rw [createChatCompletion, hchain, Nat.zero_add, createChatCompletionLoop_ok transport k v hok]
  · intro transport h
    have hchain := createChatCompletionLoop_chain transport MAX_RETRIES 0
      (fun j hj => by simpa using h j (by omega)) (by omega)
    obtain ⟨e, he, _⟩ := h MAX_RETRIES (le_refl _)
    refine ⟨e, ?_⟩
    rw [createChatCompletion, hchain, Nat.zero_add, createChatCompletionLoop, he]
    dsimp only
    rw [dif_pos]
    left
    omega
  · intro transport k e htrans he hnr hbound
    have hchain := createChatCompletionLoop_chain transport k 0
      (fun j hj => by simpa using htrans j hj) (by omega)
    rw [createChatCompletion, hchain, Nat.zero_add, createChatCompletionLoop, he]
    dsimp only
    rw [dif_pos]
    right
    exact hnr
  · intro e he
    simp [shouldRetry, he]
  · intro e
    cases hs : getErrorStatus e with
    | none => simp [shouldRetry, hs]
    | some s =>
      simp only [shouldRetry, hs, Bool.or_eq_true, beq_iff_eq, decide_eq_true_eq,
        Option.some.injEq]
      constructor
      · rintro (h | h)
        · exact Or.inl h
        · exact Or.inr ⟨s, rfl, h⟩
      · rintro (h | ⟨t, ht, h⟩)
        · exact Or.inl h
        · subst ht
          exact Or.inr h

/-- Witness for C6: a transport failing twice with 429 then succeeding
returns the success in 3 requests; an always-500 transport raises after
9 requests; an immediate 404 is raised after 1 request. -/
theorem claim_C6_retry_backoff_witness :
    createChatCompletion transientThenOkTransport = (.ok "done", 3) ∧
    (∃ e, createChatCompletion alwaysFailTransport = (.error e, MAX_RETRIES + 1)) ∧
    createChatCompletion notFoundTransport = (.error { status := some 404 }, 1) := by
  refine ⟨?_, ?_, ?_⟩
  · exact (claim_C6_retry_backoff (α := String)).1 transientThenOkTransport 2 "done"
      (fun j hj => ⟨{ status := some 429 }, by simp [transientThenOkTransport, hj], by decide⟩)
      rfl (by decide)
  · exact (claim_C6_retry_backoff (α := String)).2.1 alwaysFailTransport
      (fun j _ => ⟨{ status := some 500 }, rfl, by decide⟩)
  · exact (claim_C6_retry_backoff (α := String)).2.2.1 notFoundTransport 0
      { status := some 404 }
      (fun j hj => absurd hj (by omega)) rfl (by decide) (by decide)

/-- C3 counterexample: merging a declared memory config with an
inherited memory puts the sub-task's own declared context first and the
inherited context after it — not the inherited entries ahead of the
declared ones as claimed. -/
theorem claim_C3_memory_merge_counterexample :
    (mergeMemoryConfigs (some { context := ["own"], history := [] })
        { context := ["inh"], history := [] }).context = ["own", "inh"] ∧
    ¬ (mergeMemoryConfigs (some { context := ["own"], history := [] })
        { context := ["inh"], history := [] }).context =
        ({ context := ["inh"], history := [] } : Memory).toConfig.context ++
          ({ context := ["own"], history := [] } : MemoryConfig).context := by
  exact ⟨rfl, by decide⟩

/-- C3 (amended): for every invoke_task sub-task invocation with an
inherited parent memory, the sub-task runs with a merged memory whose
context and history lists each consist of the sub-task's own declared
entries placed ahead of (before) the invoking task's inherited entries:
`mergeMemoryConfigs` concatenates declared-then-inherited,
`applyInheritedMemory` installs that merge as the sub-task's memory, and
`runTaskBody` with an inherited memory behaves exactly like running the
task with the merged memory installed. -/
theorem claim_C3_memory_merge_amended :
    (∀ (base : MemoryConfig) (inherited : Memory),
      (mergeMemoryConfigs (some base) inherited).context =
          base.context ++ inherited.toConfig.context ∧
      (mergeMemoryConfigs (some base) inherited).history =
          base.history ++ inherited.toConfig.history) ∧
    (∀ (task : AgentTask) (inherited : Memory),
      applyInheritedMemory (.agent task) inherited =
        .agent { task with memory := mergeMemoryConfigs (some task.memory) inherited }) ∧
    (∀ (env : Env) (subRun : SubRun) (task : AgentTask) (context : TaskExecutionContext)
        (inherited : Memory) (st : RunState),
      runTaskBody env subRun (.agent task) context (some inherited) st =
        runTaskBody env subRun
          (.agent { task with memory := mergeMemoryConfigs (some task.memory) inherited })
          context none st) := by
  exact ⟨fun base inherited => ⟨rfl, rfl⟩,
         fun task inherited => rfl,
         fun env subRun task context inherited st => rfl⟩

/-- C9: an agent task whose memory history does not end in a user entry
and which declares no seed input terminates at once in the distinguished
no-seed state: no completion request is issued (the run state is
returned untouched) and the memory is exactly the one created from the
task's declared config. -/
theorem claim_C9_no_seed_terminates (env : Env) (fuel : Nat) (task : AgentTask)
    (context : TaskExecutionContext) (st : RunState)
    (hseed : (createMemory task.memory).endsWithUserMessage = false)
    (hinput : task.input = none) :
    runAgentTask env fuel task context st =
      { memory := createMemory task.memory,
        reason := .noSeed,
        messages := outcomeMessages task (buildMessages (createMemory task.memory)),
        state := st } := by
  simp [runAgentTask, runAgentTaskGen, hseed, hinput]

/-- Witness for C9: a task whose history is empty (so it cannot end with
a user turn) and has no input terminates with reason `noSeed`, zero
calls and its configured memory. -/
theorem claim_C9_no_seed_terminates_witness :
    (createMemory noSeedTask.memory).endsWithUserMessage = false ∧
    noSeedTask.input = none ∧
    runAgentTask emptyEnv 3 noSeedTask scenarioContext {} =
      { memory := createMemory noSeedTask.memory,
        reason := .noSeed,
        messages := outcomeMessages noSeedTask (buildMessages (createMemory noSeedTask.memory)),
        state := {} } := by
  exact ⟨by decide, rfl,
    claim_C9_no_seed_terminates emptyEnv 3 noSeedTask scenarioContext {} (by decide) rfl⟩

/-- C2 counterexample: the model returns textually identical content
"x" on two consecutive turns (turns 1 and 2), yet the loop does not
terminate on the second occurrence: a third completion request is
issued, and the run stops (with the repetition reason) only on the
third identical turn. -/
theorem claim_C2_repetition_guard_counterexample :
    (repeatScenarioEnv.respond 0).content = some "x" ∧
    (repeatScenarioEnv.respond 1).content = some "x" ∧
    (runAgentTask repeatScenarioEnv 5 repeatScenarioTask scenarioContext {}).state.calls = 3 ∧
    (runAgentTask repeatScenarioEnv 5 repeatScenarioTask scenarioContext {}).reason = .repeated := by
  exact ⟨rfl, rfl, by decide, by decide⟩

/-- C7 counterexample: a `fetchFoo` call whose argument string is not
valid JSON produces the structured error result naming the tool and it
is recorded as the tool message — but the loop then terminates
immediately (reason `toolError`, exactly one completion request) instead
of continuing to the next model turn. -/
theorem claim_C7_malformed_arguments_counterexample :
    parseJson "x" = none ∧
    (runAgentTask malformedArgsEnv 5 malformedArgsTask scenarioContext {}).messages.getLast? =
      some { role := .tool,
             content := some (jsonError "Invalid JSON arguments for tool fetchFoo"),
             tool_call_id := some "1" } ∧
    (runAgentTask malformedArgsEnv 5 malformedArgsTask scenarioContext {}).reason = .toolError ∧
    (runAgentTask malformedArgsEnv 5 malformedArgsTask scenarioContext {}).state.calls = 1 := by
  exact ⟨rfl, by decide, by decide, by decide⟩

/-- C8 counterexample: an MCP tool result that parses as JSON containing
an `error` field — with the falsy value `null` — is recorded as the tool
message, yet the run does not terminate there: a second completion
request is issued and the run completes normally.  The loop stops only
on a *truthy* `error` field. -/
theorem claim_C8_tool_error_stops_counterexample :
    (parseJson ((nullErrorEnv.mcpCall "s" "t").stringify)).map
        (fun j => (j.getField "error").isSome) = some true ∧
    (runAgentTask nullErrorEnv 5 nullErrorTask scenarioContext {}).messages.map
        (fun m => m.content) =
      [some "go", some "hi", some "\x7b\"error\":null\x7d", some "done"] ∧
    (runAgentTask nullErrorEnv 5 nullErrorTask scenarioContext {}).reason = .complete ∧
    (runAgentTask nullErrorEnv 5 nullErrorTask scenarioContext {}).state.calls = 2 := by
  exact ⟨by decide, by decide, by decide, by decide⟩

theorem invokeTaskFromAgentGen_depth (subRun : SubRun) (toolCall : ToolCallMsg)
    (memory : Memory) (context : TaskExecutionContext) (st : RunState)
    (args : Json) (taskId : String)
    (hparse : parseJson toolCall.function.arguments = some args)
    (htarget : invokeTaskTargetField args = some taskId)
    (hne : taskId ≠ "")
    (hdepth : context.depth ≥ MAX_TASK_CHAIN_DEPTH) :
    invokeTaskFromAgentGen subRun toolCall memory context st =
      (jsonError ("Max task chain depth (" ++ toString MAX_TASK_CHAIN_DEPTH ++ ") reached"),
       st) := by
  simp only [invokeTaskFromAgentGen, hparse, htarget]
  rw [if_neg hne, if_pos hdepth]

theorem invokeTaskFromAgentGen_cycle (subRun : SubRun) (toolCall : ToolCallMsg)
    (memory : Memory) (context : TaskExecutionContext) (st : RunState)
    (args : Json) (taskId : String)
    (hparse : parseJson toolCall.function.arguments = some args)
    (htarget : invokeTaskTargetField args = some taskId)
    (hne : taskId ≠ "")
    (hlt : context.depth < MAX_TASK_CHAIN_DEPTH)
    (hchain : context.taskChain.contains taskId = true) :
    invokeTaskFromAgentGen subRun toolCall memory context st =
      (jsonError ("Cycle detected: task \"" ++ taskId ++ "\" is already in the call chain"),
       st) := by
  simp only [invokeTaskFromAgentGen, hparse, htarget]
  rw [if_neg hne, if_neg (Nat.not_le.mpr hlt), if_pos hchain]

/-- C4: an `invoke_task` call whose parsed target id is already in the
active call chain is rejected without running anything: below the depth
limit the dispatcher returns exactly the cycle-detected error with the
run state unchanged; at any depth the result is still a structured
`error` object with the state unchanged, and the result does not depend
on the sub-task runner, so no recursion happens along that path.
Moreover `runTask` inserts the current task's id into the chain before
dispatching to the loop, and in the concrete self-invocation scenario
the cycle error is fed back to the model while the task is not run a
second time. -/
theorem claim_C4_cycle_detection :
    (∀ (subRun : SubRun) (toolCall : ToolCallMsg) (memory : Memory)
        (context : TaskExecutionContext) (st : RunState) (args : Json) (taskId : String),
      parseJson toolCall.function.arguments = some args →
      invokeTaskTargetField args = some taskId →
      taskId ≠ "" →
      context.taskChain.contains taskId = true →
      context.depth < MAX_TASK_CHAIN_DEPTH →
      invokeTaskFromAgentGen subRun toolCall memory context st =
        (jsonError ("Cycle detected: task \"" ++ taskId ++ "\" is already in the call chain"),
         st)) ∧
    (∀ (subRun : SubRun) (toolCall : ToolCallMsg) (memory : Memory)
        (context : TaskExecutionContext) (st : RunState) (args : Json) (taskId : String),
      parseJson toolCall.function.arguments = some args →
      invokeTaskTargetField args = some taskId →
      taskId ≠ "" →
      context.taskChain.contains taskId = true →
      ∃ message, invokeTaskFromAgentGen subRun toolCall memory context st =
        (jsonError message, st)) ∧
    (∀ (chain : List String) (id : String), (chainInsert chain id).contains id = true) ∧
    (∀ (env : Env) (subRun : SubRun) (task : AgentTask) (context : TaskExecutionContext)
        (st : RunState),
      runTaskBody env subRun (.agent task) context none st =
        (let result := runAgentTaskGen env subRun task
            { context with taskChain := chainInsert context.taskChain task.id }
            { st with started := st.started ++ [task.id] }
         (some result.memory, result.state))) ∧
    ((runTask selfInvokeEnv 9 (.agent selfInvokeTask) selfInvokeContext none {}).2 =
        { calls := 2, started := ["A"] } ∧
      (runAgentTask selfInvokeEnv 9 selfInvokeTask scenarioContext {}).messages.map
          (fun m => m.content) =
        [some "go", some "try",
         some (jsonError "Cycle detected: task \"A\" is already in the call chain"),
         some "done"]) := by
  refine ⟨?_, ?_, ?_, ?_, by decide, by decide⟩
  · intro subRun toolCall memory context st args taskId hparse htarget hne hchain hlt
    exact invokeTaskFromAgentGen_cycle subRun toolCall memory context st args taskId
      hparse htarget hne hlt hchain
  · intro subRun toolCall memory context st args taskId hparse htarget hne hchain
    by_cases hdepth : context.depth ≥ MAX_TASK_CHAIN_DEPTH
    · exact ⟨_, invokeTaskFromAgentGen_depth subRun toolCall memory context st args taskId
        hparse htarget hne hdepth⟩
    · exact ⟨_, invokeTaskFromAgentGen_cycle subRun toolCall memory context st args taskId
        hparse htarget hne (Nat.not_le.mp hdepth) hchain⟩
  · intro chain id
    by_cases h : id ∈ chain <;> simp [chainInsert, h]
  · intro env subRun task context st
    rfl

/-- Witness for C4: a tool call targeting the currently running task
"A" (whose id is in the chain, at depth 0) is rejected with the cycle
error and an unchanged run state. -/
theorem claim_C4_cycle_detection_witness :
    invokeTaskFromAgentGen (subRunOf emptyEnv 0)
        ⟨"1", "function", ⟨"invoke_task", "\x7b\"taskId\":\"A\"\x7d"⟩⟩
        { context := [], history := [] } scenarioContext {} =
      (jsonError "Cycle detected: task \"A\" is already in the call chain", {}) := by
  exact (claim_C4_cycle_detection).1 (subRunOf emptyEnv 0)
    ⟨"1", "function", ⟨"invoke_task", "\x7b\"taskId\":\"A\"\x7d"⟩⟩
    { context := [], history := [] } scenarioContext {}
    (Json.obj [("taskId", .str "A")]) "A" rfl rfl (by decide) (by decide) (by decide)

/-- C5: an `invoke_task` call made at recursion depth ≥ 3
(`MAX_TASK_CHAIN_DEPTH`) returns the depth-exceeded structured error
with the run state unchanged and independently of the sub-task runner,
so the target task is not executed; and in the concrete nested chain
A→B→C→D→E the first three nested invocations proceed (tasks B, C and D
all start) while the 4th nested attempt — invoking E at depth 3 — is
rejected and E never starts. -/
theorem claim_C5_depth_limit :
    (∀ (subRun : SubRun) (toolCall : ToolCallMsg) (memory : Memory)
        (context : TaskExecutionContext) (st : RunState) (args : Json) (taskId : String),
      parseJson toolCall.function.arguments = some args →
      invokeTaskTargetField args = some taskId →
      taskId ≠ "" →
      context.depth ≥ MAX_TASK_CHAIN_DEPTH →
      invokeTaskFromAgentGen subRun toolCall memory context st =
        (jsonError ("Max task chain depth (" ++ toString MAX_TASK_CHAIN_DEPTH ++ ") reached"),
         st)) ∧
    (runTask chainScenarioEnv 9 (.agent chainTaskA) chainScenarioContext none {}).2.started =
      ["A", "B", "C", "D"] ∧
    (runTask chainScenarioEnv 9 (.agent chainTaskA) chainScenarioContext none {}).2.calls = 8 ∧
    "E" ∉ (runTask chainScenarioEnv 9 (.agent chainTaskA) chainScenarioContext none {}).2.started := by
  refine ⟨?_, by decide, by decide, by decide⟩
  intro subRun toolCall memory context st args taskId hparse htarget hne hdepth
  exact invokeTaskFromAgentGen_depth subRun toolCall memory context st args taskId
    hparse htarget hne hdepth

/-- Witness for C5: the 4th nested invocation attempt — targeting "E"
from depth 3 with chain A→B→C→D — yields exactly the depth error and
leaves the run state untouched. -/
theorem claim_C5_depth_limit_witness :
    invokeTaskFromAgentGen (subRunOf emptyEnv 0)
        ⟨"4", "function", ⟨"invoke_task", "\x7b\"taskId\":\"E\"\x7d"⟩⟩
        { context := [], history := [] }
        { tasksById := chainScenarioTasks, defaultModel := "m", depth := 3,
          taskChain := ["A", "B", "C", "D"] } {} =
      (jsonError "Max task chain depth (3) reached", {}) := by
  exact (claim_C5_depth_limit).1 (subRunOf emptyEnv 0)
    ⟨"4", "function", ⟨"invoke_task", "\x7b\"taskId\":\"E\"\x7d"⟩⟩
    { context := [], history := [] }
    { tasksById := chainScenarioTasks, defaultModel := "m", depth := 3,
      taskChain := ["A", "B", "C", "D"] } {}
    (Json.obj [("taskId", .str "E")]) "E" rfl rfl (by decide) (by decide)

theorem processOneToolCall_fst (env : Env) (subRun : SubRun) (context : TaskExecutionContext)
    (ext : List ToolDefinition) (mcp : Option (List MCPServerConfig))
    (toolCall : ToolCallMsg) (ls : LoopState) :
    (processOneToolCall env subRun context ext mcp toolCall ls).1 = none ∨
    (processOneToolCall env subRun context ext mcp toolCall ls).1 = some .repeatedTool ∨
    (processOneToolCall env subRun context ext mcp toolCall ls).1 = some .toolError := by
  unfold processOneToolCall
  by_cases h1 : toolCall.type ≠ "function"
  · simp [h1]
  · by_cases h2 : toolCall.function.name = "invoke_task"
    · rcases hinv : invokeTaskFromAgentGen subRun toolCall ls.memory context ls.run with ⟨result, run2⟩
      simp [h1, h2, hinv]
    · simp [h1, h2]
      split_ifs <;> simp

theorem processToolCalls_fst (env : Env) (subRun : SubRun) (context : TaskExecutionContext)
    (ext : List ToolDefinition) (mcp : Option (List MCPServerConfig)) :
    ∀ (tcs : List ToolCallMsg) (ls : LoopState),
      (processToolCalls env subRun context ext mcp tcs ls).1 = none ∨
      (processToolCalls env subRun context ext mcp tcs ls).1 = some .repeatedTool ∨
      (processToolCalls env subRun context ext mcp tcs ls).1 = some .toolError := by
  intro tcs
  induction tcs with
  | nil => intro ls; left; rfl
  | cons tc rest ih =>
    intro ls
    have h := processOneToolCall_fst env subRun context ext mcp tc ls
    unfold processToolCalls
    rcases hp : processOneToolCall env subRun context ext mcp tc ls with ⟨fst, ls2⟩
    rw [hp] at h
    cases fst with
    | none => exact ih ls2
    | some r =>
      dsimp only
      simpa using h

theorem processToolCalls_stop (env : Env) (subRun : SubRun) (context : TaskExecutionContext)
    (ext : List ToolDefinition) (mcp : Option (List MCPServerConfig))
    (tcs : List ToolCallMsg) (ls ls2 : LoopState) (r : StopReason)
    (heq : processToolCalls env subRun context ext mcp tcs ls = (some r, ls2)) :
    r = .repeatedTool ∨ r = .toolError := by
  rcases processToolCalls_fst env subRun context ext mcp tcs ls with h | h | h <;>
    rw [heq] at h <;> simp_all

theorem agentIter_ne_noTools (env : Env) (subRun : SubRun) (context : TaskExecutionContext)
    (ext toolDefs : List ToolDefinition) (mcp : Option (List MCPServerConfig))
    (h : toolDefs ≠ []) :
    ∀ (iters : Nat) (ls : LoopState),
      (agentIter env subRun context ext toolDefs mcp iters ls).reason ≠ .noTools := by
  intro iters
  induction iters with
  | zero => intro ls; simp [agentIter, finishRun]
  | succ n ih =>
    intro ls
    simp only [agentIter]
    repeat' split
    all_goals first
      | exact ih _
      | (simp_all [finishRun, List.isEmpty_iff]; done)
      | (rename_i heq
         rcases processToolCalls_stop env subRun context ext mcp _ _ _ _ heq with h3 | h3 <;>
           simp_all [finishRun])

/-- C10: the tool list used by the agent loop always contains a tool
named `invoke_task` (appended whenever no resolved tool already bears
that name), hence is never empty, and consequently no agent run can
ever stop with the defensive empty-tool-set reason. -/
theorem claim_C10_invoke_task_always_present (env : Env) (task : AgentTask) :
    "invoke_task" ∈ (agentToolDefinitions env task).map (fun t => t.name) ∧
    agentToolDefinitions env task ≠ [] ∧
    ∀ (fuel : Nat) (context : TaskExecutionContext) (st : RunState),
      (runAgentTask env fuel task context st).reason ≠ .noTools := by
  have hmem : "invoke_task" ∈ (agentToolDefinitions env task).map (fun t => t.name) := by
    simp only [agentToolDefinitions]
    split
    · rename_i hany
      obtain ⟨t, ht, hname⟩ := List.any_eq_true.mp hany
      exact List.mem_map.mpr ⟨t, ht, by simpa [buildInvokeTaskTool] using hname⟩
    · exact List.mem_map.mpr ⟨buildInvokeTaskTool, by simp, rfl⟩
  have hne : agentToolDefinitions env task ≠ [] := by
    intro hnil
    rw [hnil] at hmem
    simp at hmem
  refine ⟨hmem, hne, ?_⟩
  intro fuel context st
  simp only [runAgentTask, runAgentTaskGen]
  split
  · exact agentIter_ne_noTools env (subRunOf env fuel) context (resolveTaskTools env task)
      (agentToolDefinitions env task) task.mcpServers hne MAX_AGENT_ITERATIONS _
  · split
    · exact agentIter_ne_noTools env (subRunOf env fuel) context (resolveTaskTools env task)
        (agentToolDefinitions env task) task.mcpServers hne MAX_AGENT_ITERATIONS _
    · simp

/-- Witness for C10: for a concrete task with no tools configured, the
resolved tool list still carries `invoke_task` and the run does not stop
with the empty-tool-set reason. -/
theorem claim_C10_invoke_task_always_present_witness :
    "invoke_task" ∈ (agentToolDefinitions emptyEnv noSeedTask).map (fun t => t.name) ∧
    (runAgentTask emptyEnv 3 noSeedTask scenarioContext {}).reason ≠ .noTools := by
  exact ⟨(claim_C10_invoke_task_always_present emptyEnv noSeedTask).1,
         (claim_C10_invoke_task_always_present emptyEnv noSeedTask).2.2 3 scenarioContext {}⟩


theorem parseStringChars_cons_quote (cs : List Char) :
    parseStringChars ('"' :: cs) = some ([], cs) := by
  rw [parseStringChars.eq_def]
  simp

theorem parseStringChars_cons_esc (e : Char) (cs : List Char) :
    parseStringChars ('\\' :: e :: cs) =
      match escCode e with
      | none => none
      | some d =>
        match parseStringChars cs with
        | none => none
        | some (s, rest) => some (d :: s, rest) := by
  rw [parseStringChars.eq_def]
  simp

theorem parseStringChars_cons_plain (c : Char) (cs : List Char)
    (h1 : ¬ c = '"') (h2 : ¬ c = '\\') :
    parseStringChars (c :: cs) =
      match parseStringChars cs with
      | none => none
      | some (s, rest) => some (c :: s, rest) := by
  rw [parseStringChars.eq_def]
  simp [h1, h2]

theorem escapeChar_plain (c : Char) (h1 : ¬ c = '"') (h2 : ¬ c = '\\')
    (h3 : ¬ c = '\n') (h4 : ¬ c = '\t') (h5 : ¬ c = '\r') :
    escapeChar c = [c] := by
  simp [escapeChar, h1, h2, h3, h4, h5]

theorem parseStringChars_escapeChars :
    ∀ (l : List Char) (rest : List Char),
      parseStringChars (escapeChars l ++ '"' :: rest) = some (l, rest) := by
  intro l
  induction l with
  | nil =>
    intro rest
    simp [escapeChars, parseStringChars_cons_quote]
  | cons c cs ih =>
    intro rest
    have hesc : escapeChars (c :: cs) = escapeChar c ++ escapeChars cs := by
      simp [escapeChars]
    rw [hesc, List.append_assoc]
    by_cases h1 : c = '"'
    · subst h1
      rw [show escapeChar '"' = ['\\', '"'] from rfl]
      rw [List.cons_append, List.cons_append, List.nil_append]
      rw [parseStringChars_cons_esc]
      rw [show escCode '"' = some '"' from rfl, ih]
    · by_cases h2 : c = '\\'
      · subst h2
        rw [show escapeChar '\\' = ['\\', '\\'] from rfl]
        rw [List.cons_append, List.cons_append, List.nil_append]
        rw [parseStringChars_cons_esc]
        rw [show escCode '\\' = some '\\' from rfl, ih]
      · by_cases h3 : c = '\n'
        · subst h3
          rw [show escapeChar '\n' = ['\\', 'n'] from rfl]
          rw [List.cons_append, List.cons_append, List.nil_append]
          rw [parseStringChars_cons_esc]
          rw [show escCode 'n' = some '\n' from rfl, ih]
        · by_cases h4 : c = '\t'
          · subst h4
            rw [show escapeChar '\t' = ['\\', 't'] from rfl]
            rw [List.cons_append, List.cons_append, List.nil_append]
            rw [parseStringChars_cons_esc]
            rw [show escCode 't' = some '\t' from rfl, ih]
          · by_cases h5 : c = '\r'
            · subst h5
              rw [show escapeChar '\r' = ['\\', 'r'] from rfl]
              rw [List.cons_append, List.cons_append, List.nil_append]
              rw [parseStringChars_cons_esc]
              rw [show escCode 'r' = some '\r' from rfl, ih]
            · rw [escapeChar_plain c h1 h2 h3 h4 h5]
              rw [List.cons_append, List.nil_append]
              rw [parseStringChars_cons_plain c _ h1 h2, ih]



theorem jsonError_data (msg : String) :
    (jsonError msg).data =
      lbraceChar :: '"' :: 'e' :: 'r' :: 'r' :: 'o' :: 'r' :: '"' :: ':' :: '"' ::
        (escapeChars msg.data ++ '"' :: rbraceChar :: []) := by
  show ((Json.obj [("error", .str msg)]).stringify).data = _
  simp only [Json.stringify, Json.stringifyFields, quoteString]
  simp only [String.data_append]
  rw [show Char.ofNat 123 = lbraceChar from rfl, show Char.ofNat 125 = rbraceChar from rfl]
  simp [lbraceChar, rbraceChar]
  rw [show escapeChars ['e', 'r', 'r', 'o', 'r'] = ['e', 'r', 'r', 'o', 'r'] from by decide]
  simp



theorem skipWs_not_ws (c : Char) (cs : List Char)
    (h : ¬(c = ' ' ∨ c = '\n' ∨ c = '\t' ∨ c = '\r')) :
    skipWs (c :: cs) = c :: cs := by
  rw [skipWs.eq_def]
  simp [h]

theorem parseVal_quoted (fuel : Nat) (l rest : List Char) :
    parseVal (fuel + 1) ('"' :: (escapeChars l ++ '"' :: rest)) =
      some (.str (String.mk l), rest) := by
  simp only [parseVal]
  rw [show skipWs ('"' :: (escapeChars l ++ '"' :: rest)) = '"' :: (escapeChars l ++ '"' :: rest)
      from by rw [skipWs.eq_def]; simp]
  simp [parseStringChars_escapeChars]

theorem parseObjItems_error (fuel : Nat) (msg : String) :
    parseObjItems (fuel + 2)
        ('"' :: 'e' :: 'r' :: 'r' :: 'o' :: 'r' :: '"' :: ':' :: '"' ::
          (escapeChars msg.data ++ '"' :: rbraceChar :: [])) =
      some ([("error", .str msg)], []) := by
  simp only [parseObjItems]
  rw [show skipWs ('"' :: 'e' :: 'r' :: 'r' :: 'o' :: 'r' :: '"' :: ':' :: '"' ::
        (escapeChars msg.data ++ '"' :: rbraceChar :: [])) =
      '"' :: 'e' :: 'r' :: 'r' :: 'o' :: 'r' :: '"' :: ':' :: '"' ::
        (escapeChars msg.data ++ '"' :: rbraceChar :: [])
      from by rw [skipWs.eq_def]; simp]
  simp [parseStringChars_cons_plain, parseStringChars_cons_quote]
  rw [skipWs_not_ws ':' _ (by decide)]
  simp [parseVal_quoted fuel msg.data [rbraceChar], skipWs_not_ws rbraceChar [] (by decide),
        show ¬ rbraceChar = ',' from by decide]



theorem parseVal_jsonError (msg : String) (fuel : Nat) :
    parseVal (fuel + 3) ((jsonError msg).data) = some (.obj [("error", .str msg)], []) := by
  rw [jsonError_data]
  show parseVal ((fuel + 2) + 1) _ = _
  simp only [parseVal]
  rw [skipWs_not_ws lbraceChar
    ('"' :: 'e' :: 'r' :: 'r' :: 'o' :: 'r' :: '"' :: ':' :: '"' ::
      (escapeChars msg.data ++ ['"', rbraceChar])) (by decide)]
  simp [show ¬ lbraceChar = '"' from by decide,
        show ¬ ('"' : Char) = rbraceChar from by decide,
        skipWs_not_ws '"'
          ('e' :: 'r' :: 'r' :: 'o' :: 'r' :: '"' :: ':' :: '"' ::
            (escapeChars msg.data ++ ['"', rbraceChar])) (by decide),
        parseObjItems_error fuel msg]

theorem parseJson_jsonError (msg : String) :
    parseJson (jsonError msg) = some (.obj [("error", .str msg)]) := by
  unfold parseJson
  have hlen : 2 ≤ (jsonError msg).length := by
    have h1 : jsonError msg =
        "\x7b" ++ Json.stringifyFields [("error", .str msg)] ++ "\x7d" := rfl
    rw [h1, String.length_append, String.length_append]
    rw [show ("\x7b" : String).length = 1 from rfl, show ("\x7d" : String).length = 1 from rfl]
    omega
  obtain ⟨k, hk⟩ : ∃ k, (jsonError msg).length + 1 = k + 3 :=
    ⟨(jsonError msg).length - 2, by omega⟩
  rw [show (jsonError msg).toList = (jsonError msg).data from rfl, hk, parseVal_jsonError]
  simp [skipWs]

theorem errorResult_truthy (msg : String) (h : ¬ msg = "") :
    (match parseJson (jsonError msg) with
      | some parsed => Json.truthy (parsed.getField "error")
      | none => false) = true := by
  rw [parseJson_jsonError]
  simp [Json.getField, lookupLast, Json.truthy, h]

theorem invalid_args_message_ne_empty (name : String) :
    ¬ ("Invalid JSON arguments for tool " ++ name) = "" := by
  intro h
  have h2 := congrArg String.length h
  rw [String.length_append] at h2
  rw [show ("Invalid JSON arguments for tool " : String).length = 32 from rfl] at h2
  rw [show ("" : String).length = 0 from rfl] at h2
  omega


theorem processOneToolCall_invoke_continues (env : Env) (subRun : SubRun)
    (context : TaskExecutionContext) (ext : List ToolDefinition)
    (mcp : Option (List MCPServerConfig)) (toolCall : ToolCallMsg) (ls : LoopState)
    (h1 : toolCall.type = "function")
    (h2 : toolCall.function.name = "invoke_task") :
    (processOneToolCall env subRun context ext mcp toolCall ls).1 = none := by
  simp only [processOneToolCall]
  rw [if_neg (by simp [h1]), if_pos h2]

theorem processOneToolCall_stops_on_truthy_error (env : Env) (subRun : SubRun)
    (context : TaskExecutionContext) (ext : List ToolDefinition)
    (mcp : Option (List MCPServerConfig)) (toolCall : ToolCallMsg) (ls : LoopState)
    (h1 : toolCall.type = "function")
    (h2 : ¬ toolCall.function.name = "invoke_task")
    (hguard : (if toolSignatureMatches ls.lastToolSignature
        (toolCall.function.name ++ ":" ++ toolCall.function.arguments) then
        ls.repeatedToolCalls + 1 else 0) < 2)
    (herr : (match parseJson (executeTool env toolCall { tools := ext, mcpServers := mcp }) with
      | some parsed => Json.truthy (parsed.getField "error")
      | none => false) = true) :
    (processOneToolCall env subRun context ext mcp toolCall ls).1 = some .toolError ∧
    (processOneToolCall env subRun context ext mcp toolCall ls).2.messages =
      ls.messages ++ [toolResponseMsg toolCall
        (executeTool env toolCall { tools := ext, mcpServers := mcp })] ∧
    (processOneToolCall env subRun context ext mcp toolCall ls).2.run = ls.run := by
  by_cases hsig : toolSignatureMatches ls.lastToolSignature
      (toolCall.function.name ++ ":" ++ toolCall.function.arguments) = true
  · rw [if_pos hsig] at hguard
    refine ⟨?_, ?_, ?_⟩ <;>
      simp [processOneToolCall, h1, h2, hsig, herr, Nat.not_le.mpr hguard]
  · refine ⟨?_, ?_, ?_⟩ <;>
      simp [processOneToolCall, h1, h2, hsig, herr]



/-- C7 (amended). -/
theorem claim_C7_malformed_arguments_amended :
    (∀ (env : Env) (toolCall : ToolCallMsg) (tec : ToolExecutionContext),
      parseJson toolCall.function.arguments = none →
      executeTool env toolCall tec =
        jsonError ("Invalid JSON arguments for tool " ++ toolCall.function.name)) ∧
    (∀ (subRun : SubRun) (toolCall : ToolCallMsg) (memory : Memory)
        (context : TaskExecutionContext) (st : RunState),
      parseJson toolCall.function.arguments = none →
      invokeTaskFromAgentGen subRun toolCall memory context st =
        (jsonError "Invalid JSON arguments for tool invoke_task", st)) ∧
    (∀ (env : Env) (subRun : SubRun) (context : TaskExecutionContext)
        (ext : List ToolDefinition) (mcp : Option (List MCPServerConfig))
        (toolCall : ToolCallMsg) (ls : LoopState),
      toolCall.type = "function" →
      toolCall.function.name = "invoke_task" →
      (processOneToolCall env subRun context ext mcp toolCall ls).1 = none) ∧
    (∀ (env : Env) (subRun : SubRun) (context : TaskExecutionContext)
        (ext : List ToolDefinition) (mcp : Option (List MCPServerConfig))
        (toolCall : ToolCallMsg) (ls : LoopState),
      toolCall.type = "function" →
      ¬ toolCall.function.name = "invoke_task" →
      parseJson toolCall.function.arguments = none →
      (if toolSignatureMatches ls.lastToolSignature
          (toolCall.function.name ++ ":" ++ toolCall.function.arguments) then
          ls.repeatedToolCalls + 1 else 0) < 2 →
      (processOneToolCall env subRun context ext mcp toolCall ls).1 = some .toolError ∧
      (processOneToolCall env subRun context ext mcp toolCall ls).2.messages =
        ls.messages ++ [toolResponseMsg toolCall
          (jsonError ("Invalid JSON arguments for tool " ++ toolCall.function.name))] ∧
      (processOneToolCall env subRun context ext mcp toolCall ls).2.run = ls.run) := by
  have hexec : ∀ (env : Env) (toolCall : ToolCallMsg) (tec : ToolExecutionContext),
      parseJson toolCall.function.arguments = none →
      executeTool env toolCall tec =
        jsonError ("Invalid JSON arguments for tool " ++ toolCall.function.name) := by
    intro env toolCall tec h
    simp only [executeTool, h]
  refine ⟨hexec, ?_, ?_, ?_⟩
  · intro subRun toolCall memory context st h
    simp only [invokeTaskFromAgentGen, h]
  · intro env subRun context ext mcp toolCall ls h1 h2
    exact processOneToolCall_invoke_continues env subRun context ext mcp toolCall ls h1 h2
  · intro env subRun context ext mcp toolCall ls h1 h2 hargs hguard
    have he := hexec env toolCall { tools := ext, mcpServers := mcp } hargs
    have herr : (match parseJson (executeTool env toolCall { tools := ext, mcpServers := mcp }) with
        | some parsed => Json.truthy (parsed.getField "error")
        | none => false) = true := by
      rw [he]
      exact errorResult_truthy _ (invalid_args_message_ne_empty toolCall.function.name)
    have hmain := processOneToolCall_stops_on_truthy_error env subRun context ext mcp toolCall ls
      h1 h2 hguard herr
    refine ⟨hmain.1, ?_, hmain.2.2⟩
    rw [hmain.2.1, he]

/-- Witness for C7 (amended). -/
theorem claim_C7_malformed_arguments_amended_witness :
    executeTool emptyEnv ⟨"1", "function", ⟨"fetchFoo", "x"⟩⟩ { tools := [fetchFooTool] } =
      jsonError "Invalid JSON arguments for tool fetchFoo" ∧
    invokeTaskFromAgentGen (subRunOf emptyEnv 0) ⟨"1", "function", ⟨"invoke_task", "x"⟩⟩
        { context := [], history := [] } scenarioContext {} =
      (jsonError "Invalid JSON arguments for tool invoke_task", {}) ∧
    (processOneToolCall emptyEnv (subRunOf emptyEnv 0) scenarioContext [] none
        ⟨"1", "function", ⟨"invoke_task", "x"⟩⟩
        { messages := [], memory := { context := [], history := [] }, run := {} }).1 = none ∧
    (processOneToolCall emptyEnv (subRunOf emptyEnv 0) scenarioContext [fetchFooTool] none
        ⟨"1", "function", ⟨"fetchFoo", "x"⟩⟩
        { messages := [], memory := { context := [], history := [] }, run := {} }).1 =
      some .toolError := by
  refine ⟨?_, ?_, ?_, ?_⟩
  · exact claim_C7_malformed_arguments_amended.1 emptyEnv ⟨"1", "function", ⟨"fetchFoo", "x"⟩⟩
      { tools := [fetchFooTool] } rfl
  · exact claim_C7_malformed_arguments_amended.2.1 (subRunOf emptyEnv 0)
      ⟨"1", "function", ⟨"invoke_task", "x"⟩⟩ { context := [], history := [] }
      scenarioContext {} rfl
  · exact claim_C7_malformed_arguments_amended.2.2.1 emptyEnv (subRunOf emptyEnv 0)
      scenarioContext [] none ⟨"1", "function", ⟨"invoke_task", "x"⟩⟩
      { messages := [], memory := { context := [], history := [] }, run := {} } rfl rfl
  · exact (claim_C7_malformed_arguments_amended.2.2.2 emptyEnv (subRunOf emptyEnv 0)
      scenarioContext [fetchFooTool] none ⟨"1", "function", ⟨"fetchFoo", "x"⟩⟩
      { messages := [], memory := { context := [], history := [] }, run := {} }
      rfl (by decide) rfl (by decide)).1

/-- C8 (amended). -/
theorem claim_C8_tool_error_stops_amended :
    (∀ (env : Env) (subRun : SubRun) (context : TaskExecutionContext)
        (ext : List ToolDefinition) (mcp : Option (List MCPServerConfig))
        (toolCall : ToolCallMsg) (ls : LoopState),
      toolCall.type = "function" →
      ¬ toolCall.function.name = "invoke_task" →
      (if toolSignatureMatches ls.lastToolSignature
          (toolCall.function.name ++ ":" ++ toolCall.function.arguments) then
          ls.repeatedToolCalls + 1 else 0) < 2 →
      (match parseJson (executeTool env toolCall { tools := ext, mcpServers := mcp }) with
        | some parsed => Json.truthy (parsed.getField "error")
        | none => false) = true →
      (processOneToolCall env subRun context ext mcp toolCall ls).1 = some .toolError ∧
      (processOneToolCall env subRun context ext mcp toolCall ls).2.messages =
        ls.messages ++ [toolResponseMsg toolCall
          (executeTool env toolCall { tools := ext, mcpServers := mcp })] ∧
      (processOneToolCall env subRun context ext mcp toolCall ls).2.run = ls.run) ∧
    (∀ (env : Env) (subRun : SubRun) (context : TaskExecutionContext)
        (ext : List ToolDefinition) (mcp : Option (List MCPServerConfig))
        (toolCall : ToolCallMsg) (rest : List ToolCallMsg) (ls ls2 : LoopState)
        (r : StopReason),
      processOneToolCall env subRun context ext mcp toolCall ls = (some r, ls2) →
      processToolCalls env subRun context ext mcp (toolCall :: rest) ls = (some r, ls2)) ∧
    (∀ (env : Env) (subRun : SubRun) (context : TaskExecutionContext)
        (ext : List ToolDefinition) (mcp : Option (List MCPServerConfig))
        (toolCall : ToolCallMsg) (ls : LoopState),
      toolCall.type = "function" →
      toolCall.function.name = "invoke_task" →
      (processOneToolCall env subRun context ext mcp toolCall ls).1 = none) := by
  refine ⟨?_, ?_, ?_⟩
  · intro env subRun context ext mcp toolCall ls h1 h2 hguard herr
    exact processOneToolCall_stops_on_truthy_error env subRun context ext mcp toolCall ls
      h1 h2 hguard herr
  · intro env subRun context ext mcp toolCall rest ls ls2 r h
    simp only [processToolCalls]
    rw [h]
  · intro env subRun context ext mcp toolCall ls h1 h2
    exact processOneToolCall_invoke_continues env subRun context ext mcp toolCall ls h1 h2

/-- Witness for C8 (amended). -/
theorem claim_C8_tool_error_stops_amended_witness :
    (processOneToolCall emptyEnv (subRunOf emptyEnv 0) scenarioContext [] none
        ⟨"1", "function", ⟨"mystery", "\x7b\x7d"⟩⟩
        { messages := [], memory := { context := [], history := [] }, run := {} }).1 =
      some .toolError ∧
    (processOneToolCall emptyEnv (subRunOf emptyEnv 0) scenarioContext [] none
        ⟨"1", "function", ⟨"mystery", "\x7b\x7d"⟩⟩
        { messages := [], memory := { context := [], history := [] }, run := {} }).2.messages =
      [toolResponseMsg ⟨"1", "function", ⟨"mystery", "\x7b\x7d"⟩⟩
        (jsonError "Unknown tool name: mystery")] := by
  have h := claim_C8_tool_error_stops_amended.1 emptyEnv (subRunOf emptyEnv 0) scenarioContext
    [] none ⟨"1", "function", ⟨"mystery", "\x7b\x7d"⟩⟩
    { messages := [], memory := { context := [], history := [] }, run := {} }
    rfl (by decide) (by decide) (by decide)
  refine ⟨h.1, ?_⟩
  rw [h.2.1]
  rfl



theorem contentMatchesLast_some (a : String) (lb : Option String)
    (h : contentMatchesLast (some a) lb = true) : lb = some a := by
  cases lb with
  | none => simp [contentMatchesLast] at h
  | some b =>
    simp [contentMatchesLast] at h
    rw [h]

theorem agentToolDefinitions_ne_nil (env : Env) (task : AgentTask) :
    agentToolDefinitions env task ≠ [] := by
  simp only [agentToolDefinitions]
  split
  · rename_i hany
    intro hnil
    rw [hnil] at hany
    simp at hany
  · simp

theorem processToolCalls_invoke_parse_fail (env : Env) (subRun : SubRun)
    (context : TaskExecutionContext) (ext : List ToolDefinition)
    (mcp : Option (List MCPServerConfig)) :
    ∀ (tcs : List ToolCallMsg) (ls : LoopState),
      (∀ tc ∈ tcs, tc.type = "function" ∧ tc.function.name = "invoke_task" ∧
        parseJson tc.function.arguments = none) →
      processToolCalls env subRun context ext mcp tcs ls =
        (none, { ls with messages := ls.messages ++ tcs.map (fun tc =>
          toolResponseMsg tc (jsonError "Invalid JSON arguments for tool invoke_task")) }) := by
  intro tcs
  induction tcs with
  | nil => intro ls _; simp [processToolCalls]
  | cons tc rest ih =>
    intro ls h
    obtain ⟨h1, h2, h3⟩ := h tc (by simp)
    have hone : processOneToolCall env subRun context ext mcp tc ls =
        (none, { ls with messages := ls.messages ++ [toolResponseMsg tc
          (jsonError "Invalid JSON arguments for tool invoke_task")] }) := by
      simp only [processOneToolCall]
      rw [if_neg (by simp [h1]), if_pos h2]
      rw [show invokeTaskFromAgentGen subRun tc ls.memory context ls.run =
          (jsonError "Invalid JSON arguments for tool invoke_task", ls.run) from by
        simp only [invokeTaskFromAgentGen, h3]]
    simp only [processToolCalls]
    rw [hone]
    dsimp only
    rw [ih _ (fun tc2 htc2 => h tc2 (by simp [htc2]))]
    simp [List.append_assoc]



theorem agentIter_invoke_step (env : Env) (subRun : SubRun) (context : TaskExecutionContext)
    (ext toolDefs : List ToolDefinition) (mcp : Option (List MCPServerConfig))
    (n : Nat) (ls : LoopState) (c : String)
    (hc : (env.respond ls.run.calls).content = some c)
    (ht : (env.respond ls.run.calls).tool_calls ≠ [])
    (hinv : ∀ tc ∈ (env.respond ls.run.calls).tool_calls,
      tc.type = "function" ∧ tc.function.name = "invoke_task" ∧
        parseJson tc.function.arguments = none)
    (htd : toolDefs ≠ [])
    (hcount : (if contentMatchesLast (some c) ls.lastAssistantContent then
        ls.repeatedAssistantCount + 1 else 0) < MAX_REPEATED_ASSISTANT_MESSAGES) :
    ∃ ls2, agentIter env subRun context ext toolDefs mcp (n + 1) ls =
        agentIter env subRun context ext toolDefs mcp n ls2 ∧
      ls2.run.calls = ls.run.calls + 1 ∧
      ls2.lastAssistantContent = some c ∧
      ls2.repeatedAssistantCount =
        (if contentMatchesLast (some c) ls.lastAssistantContent then
          ls.repeatedAssistantCount + 1 else 0) := by
  have hte : (env.respond ls.run.calls).tool_calls.isEmpty = false := by
    cases hE : (env.respond ls.run.calls).tool_calls with
    | nil => exact absurd hE ht
    | cons a l => rfl
  have htde : toolDefs.isEmpty = false := by
    cases hD : toolDefs with
    | nil => exact absurd hD htd
    | cons a l => rfl
  by_cases hm : contentMatchesLast (some c) ls.lastAssistantContent = true
  · rw [if_pos hm] at hcount
    have hlast := contentMatchesLast_some c ls.lastAssistantContent hm
    have key : agentIter env subRun context ext toolDefs mcp (n + 1) ls =
        agentIter env subRun context ext toolDefs mcp n
          { messages := ls.messages ++ [assistantResponseMsg (env.respond ls.run.calls)] ++
              List.map (fun tc => toolResponseMsg tc
                  (jsonError "Invalid JSON arguments for tool invoke_task"))
                (env.respond ls.run.calls).tool_calls,
            memory := ls.memory.appendAssistant c,
            lastAssistantContent := ls.lastAssistantContent,
            repeatedAssistantCount := ls.repeatedAssistantCount + 1,
            lastToolSignature := ls.lastToolSignature,
            repeatedToolCalls := ls.repeatedToolCalls,
            run := { calls := ls.run.calls + 1, started := ls.run.started } } := by
      simp only [agentIter, hc, hm, if_true]
      rw [if_neg (Nat.not_le.mpr hcount)]
      rw [if_neg (by simp [hte])]
      rw [if_neg (by simp [htde])]
      rw [processToolCalls_invoke_parse_fail env subRun context ext mcp _ _ hinv]
    exact ⟨_, key, rfl, by simp [hlast], by rw [if_pos hm]⟩
  · rw [if_neg hm] at hcount
    have key : agentIter env subRun context ext toolDefs mcp (n + 1) ls =
        agentIter env subRun context ext toolDefs mcp n
          { messages := ls.messages ++ [assistantResponseMsg (env.respond ls.run.calls)] ++
              List.map (fun tc => toolResponseMsg tc
                  (jsonError "Invalid JSON arguments for tool invoke_task"))
                (env.respond ls.run.calls).tool_calls,
            memory := ls.memory.appendAssistant c,
            lastAssistantContent := some c <|> ls.lastAssistantContent,
            repeatedAssistantCount := 0,
            lastToolSignature := ls.lastToolSignature,
            repeatedToolCalls := ls.repeatedToolCalls,
            run := { calls := ls.run.calls + 1, started := ls.run.started } } := by
      simp only [agentIter, hc, hm, Bool.false_eq_true, if_false]
      rw [if_neg (Nat.not_le.mpr hcount)]
      rw [if_neg (by simp [hte])]
      rw [if_neg (by simp [htde])]
      rw [processToolCalls_invoke_parse_fail env subRun context ext mcp _ _ hinv]
    exact ⟨_, key, rfl, rfl, by rw [if_neg hm]⟩



theorem agentIter_repeat_stop (env : Env) (subRun : SubRun) (context : TaskExecutionContext)
    (ext toolDefs : List ToolDefinition) (mcp : Option (List MCPServerConfig))
    (n : Nat) (ls : LoopState) (c : String)
    (hc : (env.respond ls.run.calls).content = some c)
    (hm : contentMatchesLast (some c) ls.lastAssistantContent = true)
    (hge : MAX_REPEATED_ASSISTANT_MESSAGES ≤ ls.repeatedAssistantCount + 1) :
    (agentIter env subRun context ext toolDefs mcp (n + 1) ls).reason = .repeated ∧
    (agentIter env subRun context ext toolDefs mcp (n + 1) ls).state.calls = ls.run.calls + 1 := by
  refine ⟨?_, ?_⟩ <;>
  · simp only [agentIter, hc, hm, if_true]
    rw [if_pos (show ls.repeatedAssistantCount + 1 ≥ MAX_REPEATED_ASSISTANT_MESSAGES from hge)]
    rfl

theorem agentIter_three_repeats (env : Env) (subRun : SubRun) (context : TaskExecutionContext)
    (ext toolDefs : List ToolDefinition) (mcp : Option (List MCPServerConfig))
    (n : Nat) (ls : LoopState) (c : String)
    (hlast0 : ls.lastAssistantContent = none)
    (hc0 : (env.respond ls.run.calls).content = some c)
    (hc1 : (env.respond (ls.run.calls + 1)).content = some c)
    (hc2 : (env.respond (ls.run.calls + 2)).content = some c)
    (ht0 : (env.respond ls.run.calls).tool_calls ≠ [])
    (ht1 : (env.respond (ls.run.calls + 1)).tool_calls ≠ [])
    (hinv0 : ∀ tc ∈ (env.respond ls.run.calls).tool_calls, tc.type = "function" ∧
      tc.function.name = "invoke_task" ∧ parseJson tc.function.arguments = none)
    (hinv1 : ∀ tc ∈ (env.respond (ls.run.calls + 1)).tool_calls, tc.type = "function" ∧
      tc.function.name = "invoke_task" ∧ parseJson tc.function.arguments = none)
    (htd : toolDefs ≠ []) :
    (agentIter env subRun context ext toolDefs mcp (n + 3) ls).reason = .repeated ∧
    (agentIter env subRun context ext toolDefs mcp (n + 3) ls).state.calls = ls.run.calls + 3 := by
  obtain ⟨ls1, heq1, hcalls1, hlast1, hcnt1⟩ :=
    agentIter_invoke_step env subRun context ext toolDefs mcp (n + 2) ls c hc0 ht0 hinv0 htd
      (by rw [hlast0]; simp [contentMatchesLast, MAX_REPEATED_ASSISTANT_MESSAGES])
  rw [hlast0] at hcnt1
  simp [contentMatchesLast] at hcnt1
  obtain ⟨ls2, heq2, hcalls2, hlast2, hcnt2⟩ :=
    agentIter_invoke_step env subRun context ext toolDefs mcp (n + 1) ls1 c
      (by rw [hcalls1]; exact hc1) (by rw [hcalls1]; exact ht1) (by rw [hcalls1]; exact hinv1) htd
      (by rw [hlast1, hcnt1]; simp [contentMatchesLast, MAX_REPEATED_ASSISTANT_MESSAGES])
  rw [hlast1, hcnt1] at hcnt2
  simp [contentMatchesLast] at hcnt2
  have hstop := agentIter_repeat_stop env subRun context ext toolDefs mcp n ls2 c
      (by rw [hcalls2, hcalls1]; exact hc2)
      (by rw [hlast2]; simp [contentMatchesLast])
      (by rw [hcnt2]; decide)
  rw [show n + 3 = n + 2 + 1 from rfl, heq1, show n + 2 = n + 1 + 1 from rfl, heq2]
  refine ⟨hstop.1, ?_⟩
  rw [hstop.2, hcalls2, hcalls1]



/-- C2 (amended): when the model returns the same non-null content on three
consecutive turns — the first two turns additionally requesting only
`invoke_task` calls whose arguments fail to parse, so that tool handling
never aborts the loop — the agent loop stops with reason `repeated` after
exactly three completion requests: the guard fires on the third identical
turn (the second consecutive repetition), and no fourth request is made. -/
theorem claim_C2_repetition_guard_amended (env : Env) (fuel : Nat) (task : AgentTask)
    (context : TaskExecutionContext) (st : RunState) (c : String)
    (hseed : (createMemory task.memory).endsWithUserMessage = true)
    (hc0 : (env.respond st.calls).content = some c)
    (hc1 : (env.respond (st.calls + 1)).content = some c)
    (hc2 : (env.respond (st.calls + 2)).content = some c)
    (ht0 : (env.respond st.calls).tool_calls ≠ [])
    (ht1 : (env.respond (st.calls + 1)).tool_calls ≠ [])
    (hinv0 : ∀ tc ∈ (env.respond st.calls).tool_calls, tc.type = "function" ∧
      tc.function.name = "invoke_task" ∧ parseJson tc.function.arguments = none)
    (hinv1 : ∀ tc ∈ (env.respond (st.calls + 1)).tool_calls, tc.type = "function" ∧
      tc.function.name = "invoke_task" ∧ parseJson tc.function.arguments = none) :
    (runAgentTask env fuel task context st).reason = .repeated ∧
    (runAgentTask env fuel task context st).state.calls = st.calls + 3 := by
  have h := agentIter_three_repeats env (subRunOf env fuel) context
      (resolveTaskTools env task) (agentToolDefinitions env task) task.mcpServers 7
      { messages := outcomeMessages task (buildMessages (createMemory task.memory)),
        memory := createMemory task.memory, run := st } c
      rfl hc0 hc1 hc2 ht0 ht1 hinv0 hinv1 (agentToolDefinitions_ne_nil env task)
  have hunfold : runAgentTask env fuel task context st =
      agentIter env (subRunOf env fuel) context (resolveTaskTools env task)
        (agentToolDefinitions env task) task.mcpServers MAX_AGENT_ITERATIONS
        { messages := outcomeMessages task (buildMessages (createMemory task.memory)),
          memory := createMemory task.memory, run := st } := by
    simp only [runAgentTask, runAgentTaskGen]
    rw [if_pos hseed]
  rw [hunfold, show MAX_AGENT_ITERATIONS = 7 + 3 from rfl]
  exact h

theorem claim_C2_repetition_guard_amended_witness :
    (runAgentTask repeatScenarioEnv 5 repeatScenarioTask scenarioContext {}).reason = .repeated ∧
    (runAgentTask repeatScenarioEnv 5 repeatScenarioTask scenarioContext {}).state.calls = 3 :=
  claim_C2_repetition_guard_amended repeatScenarioEnv 5 repeatScenarioTask scenarioContext {} "x"
    (by decide) rfl rfl rfl (by decide) (by decide)
    (by
      intro tc htc
      have h : tc = ⟨"1", "function", ⟨"invoke_task", "x"⟩⟩ := by
        simpa [repeatScenarioEnv] using htc
      subst h
      exact ⟨rfl, rfl, rfl⟩)
    (by
      intro tc htc
      have h : tc = ⟨"2", "function", ⟨"invoke_task", "x"⟩⟩ := by
        simpa [repeatScenarioEnv] using htc
      subst h
      exact ⟨rfl, rfl, rfl⟩)

end Tony
